import Mathlib

/-!
Verification of the JSON wire codec of `pkg/aali_graphdb` (files `json.go`,
the generated variant families declared by `internal/gen/logical_type/gen.go`
and `internal/gen/value/gen.go`) and of the scalar-filter adapter
`GraphDbValueType.Parse` of `pkg/sharedtypes/knowledgedb.go`.

Embedding conventions:
* JSON documents are a mutually inductive AST (`Json`, `JsonArr`, `JsonObj`);
  objects are ordered key/value lists; a number literal is an exact rational
  `num/den` (Go's float64 JSON codec is shortest-round-trip exact, so a
  number is identified with the rational its decimal text denotes; integer
  literals always carry `den = 1`).
* Go machine integers are `Int`/`Nat` with explicit range checks where the
  Go code checks them (`encoding/json` rejects out-of-range numeric
  literals) and explicit two's-complement wrap (`wrap64`) where Go's int64
  arithmetic can overflow.
* Fallible decoding returns `Except JErr _` with a structured error type.
* `time.Time`, `civil.Date`, `uuid.UUID` and `decimal.Decimal` payloads are
  external library types whose own codecs are out of scope; they are
  embedded by their canonical string rendering, which is exactly what
  `json.go` passes through to/from the wire.
-/

set_option maxHeartbeats 2000000

namespace AaliGraphDb

/-! ## JSON documents -/

mutual
inductive Json where
  | null : Json
  | bool (b : Bool) : Json
  | num (n : Int) (d : Nat) : Json
  | str (s : String) : Json
  | arr (elems : JsonArr) : Json
  | obj (fields : JsonObj) : Json
  deriving DecidableEq
inductive JsonArr where
  | nil : JsonArr
  | cons (hd : Json) (tl : JsonArr) : JsonArr
  deriving DecidableEq
inductive JsonObj where
  | nil : JsonObj
  | cons (key : String) (val : Json) (tl : JsonObj) : JsonObj
  deriving DecidableEq
end

mutual
/-- Node count of a JSON document; used as decoder fuel. -/
def Json.size : Json → Nat
  | .null | .bool _ | .num _ _ | .str _ => 1
  | .arr a => a.size + 1
  | .obj o => o.size + 1
termination_by structural j => j
def JsonArr.size : JsonArr → Nat
  | .nil => 1
  | .cons h tl => h.size + tl.size + 1
termination_by structural a => a
def JsonObj.size : JsonObj → Nat
  | .nil => 1
  | .cons _ v tl => v.size + tl.size + 1
termination_by structural o => o
end

def JsonArr.length : JsonArr → Nat
  | .nil => 0
  | .cons _ tl => 1 + tl.length

def JsonObj.length : JsonObj → Nat
  | .nil => 0
  | .cons _ _ tl => 1 + tl.length

def JsonArr.toList : JsonArr → List Json
  | .nil => []
  | .cons h tl => h :: tl.toList

/-- Structured decode errors.  Each constructor corresponds to one failure
site of the Go code (`fmt.Errorf` messages of `json.go`, `encoding/json`
type/range errors, and the spec's scalar error taxonomy). -/
inductive JErr where
  /-- `encoding/json`: JSON value has the wrong type for the target. -/
  | typeErr : JErr
  /-- `json.go`: `"found string %q but expected tag %q"`. -/
  | tagMismatchString (found expected : String) : JErr
  /-- `json.go`: `"expected tag %q but got %q"`. -/
  | tagMismatchKey (expected found : String) : JErr
  /-- `json.go`: `"expected 1 key, got %v"`. -/
  | unexpectedKeyCount (n : Nat) : JErr
  /-- `json.go`: `"cannot unmarshal array of length %d to Twople..."`. -/
  | malformedTuple (n : Nat) : JErr
  /-- generic polymorphic decoder: tag not in the closed registry. -/
  | unknownTag (tag : String) : JErr
  /-- `encoding/json`: numeric literal not representable in the target
  integer type (fractional, negative for unsigned, or out of range). -/
  | numErr : JErr
  /-- blob decode: array element outside 0–255 (spec `InvalidByteValue`). -/
  | invalidByteValue (n : Int) : JErr
  /-- decoded payload left a non-defaultable field absent (a Go nil
  interface, which this embedding does not represent). -/
  | missingField (name : String) : JErr
  deriving DecidableEq

deriving instance DecidableEq for Except

/-! ## Scalar JSON decode helpers (`encoding/json` semantics) -/

/-- Decode a JSON value as a Go `bool`. -/
def decodeJsonBool : Json → Except JErr Bool
  | .bool b => .ok b
  | _ => .error .typeErr

/-- Decode a JSON value as a Go `string`. -/
def decodeJsonString : Json → Except JErr String
  | .str s => .ok s
  | _ => .error .typeErr

/-- Decode a JSON number as a Go `int64` (`encoding/json` rejects
fractional literals and out-of-range values; bounds ±2^63). -/
def decodeJsonInt64 : Json → Except JErr Int
  | .num n d =>
      if d = 1 ∧ -9223372036854775808 ≤ n ∧ n < 9223372036854775808 then .ok n
      else .error .numErr
  | _ => .error .typeErr

/-- Decode a JSON number as a Go `int32` (bounds ±2^31). -/
def decodeJsonInt32 : Json → Except JErr Int
  | .num n d =>
      if d = 1 ∧ -2147483648 ≤ n ∧ n < 2147483648 then .ok n
      else .error .numErr
  | _ => .error .typeErr

/-- Decode a JSON number as a Go `int16` (bounds ±2^15). -/
def decodeJsonInt16 : Json → Except JErr Int
  | .num n d =>
      if d = 1 ∧ -32768 ≤ n ∧ n < 32768 then .ok n
      else .error .numErr
  | _ => .error .typeErr

/-- Decode a JSON number as a Go `int8` (bounds ±2^7). -/
def decodeJsonInt8 : Json → Except JErr Int
  | .num n d =>
      if d = 1 ∧ -128 ≤ n ∧ n < 128 then .ok n
      else .error .numErr
  | _ => .error .typeErr

/-- Decode a JSON number as a Go `uint64` (bound 2^64; unsigned Go
integers are modelled as `Int` with a nonnegative range invariant, keeping
the embedding free of `Nat`-to-`Int` coercions). -/
def decodeJsonUInt64 : Json → Except JErr Int
  | .num n d =>
      if d = 1 ∧ 0 ≤ n ∧ n < 18446744073709551616 then .ok n
      else .error .numErr
  | _ => .error .typeErr

/-- Decode a JSON number as a Go `uint32` (bound 2^32; unsigned Go
integers are modelled as `Int` with a nonnegative range invariant, keeping
the embedding free of `Nat`-to-`Int` coercions). -/
def decodeJsonUInt32 : Json → Except JErr Int
  | .num n d =>
      if d = 1 ∧ 0 ≤ n ∧ n < 4294967296 then .ok n
      else .error .numErr
  | _ => .error .typeErr

/-- Decode a JSON number as a Go `uint16` (bound 2^16; unsigned Go
integers are modelled as `Int` with a nonnegative range invariant, keeping
the embedding free of `Nat`-to-`Int` coercions). -/
def decodeJsonUInt16 : Json → Except JErr Int
  | .num n d =>
      if d = 1 ∧ 0 ≤ n ∧ n < 65536 then .ok n
      else .error .numErr
  | _ => .error .typeErr

/-- Decode a JSON number as a Go `uint8` (bound 2^8; unsigned Go
integers are modelled as `Int` with a nonnegative range invariant, keeping
the embedding free of `Nat`-to-`Int` coercions). -/
def decodeJsonUInt8 : Json → Except JErr Int
  | .num n d =>
      if d = 1 ∧ 0 ≤ n ∧ n < 256 then .ok n
      else .error .numErr
  | _ => .error .typeErr

/-- Decode a JSON number as a Go float (`float64`/`float32`), modelled as
the exact rational `num/den` pair.  Binary-format range and rounding are
out of scope of the claims being checked. -/
def decodeJsonNum : Json → Except JErr (Int × Nat)
  | .num n d => .ok (n, d)
  | _ => .error .typeErr

/-! ## Externally-tagged wrapper (`externallyTagged` of `json.go`) -/

/-- `externallyTagged.MarshalJSON`: a variant with no payload (`value ==
nil`) marshals as the bare tag string, otherwise as the single-key object
`{tag: payload}`. -/
def externallyTaggedMarshal (tag : String) : Option Json → Json
  | none => .str tag
  | some payload => .obj (.cons tag payload .nil)

/-- `externallyTagged.UnmarshalJSON`.  Faithful to the Go control flow:
first unmarshal into `map[string]json.RawMessage` (which also succeeds on
JSON `null`, leaving an empty map); on failure retry as a bare string and
compare it with the tag; on success require exactly one key, then decode
the payload *before* comparing the key with the expected tag.  `.ok none`
is the unit form (`exTag.value = nil`), `.ok (some a)` the payload form. -/
def externallyTaggedUnmarshal (tag : String) (inner : Json → Except JErr α) :
    Json → Except JErr (Option α)
  | .obj (.cons k v .nil) =>
      match inner v with
      | .error e => .error e
      | .ok a => if k = tag then .ok (some a) else .error (.tagMismatchKey tag k)
  | .obj o => .error (.unexpectedKeyCount o.length)
  | .null => .error (.unexpectedKeyCount 0)
  | .str s => if s = tag then .ok none else .error (.tagMismatchString s tag)
  | _ => .error .typeErr

/-! ## 2-tuples (`Twople` of `json.go`) -/

/-- `Twople.UnmarshalJSON`: unmarshal into `[]json.RawMessage` (JSON `null`
yields a nil slice of length 0), then require length exactly 2 and decode
the two elements in order. -/
def twopleUnmarshal (decA : Json → Except JErr α) (decB : Json → Except JErr β) :
    Json → Except JErr (α × β)
  | .arr (.cons a (.cons b .nil)) =>
      match decA a with
      | .error e => .error e
      | .ok x =>
          match decB b with
          | .error e => .error e
          | .ok y => .ok (x, y)
  | .arr elems => .error (.malformedTuple elems.length)
  | .null => .error (.malformedTuple 0)
  | _ => .error .typeErr

/-! ## InternalID (`json.go` lines 31–34) -/

/-- `InternalID`: `{table_id: uint64, offset: uint64}` (`uint64` modelled
as a range-restricted `Int`). -/
structure InternalID where
  tableId : Int
  offset : Int
  deriving DecidableEq

def InternalID.wf (id : InternalID) : Bool :=
  decide (0 ≤ id.tableId) && decide (id.tableId < 18446744073709551616) &&
  decide (0 ≤ id.offset) && decide (id.offset < 18446744073709551616)

/-- Marshal of `InternalID` (stdlib `encoding/json` on the struct): fields
in declaration order with their `json:` names. -/
def encodeInternalID (id : InternalID) : Json :=
  .obj (.cons "table_id" (.num id.tableId 1) (.cons "offset" (.num id.offset 1) .nil))

/-- Field loop of the stdlib decode of `InternalID`: keys are matched to
struct fields, unknown keys are ignored, later duplicates overwrite, and a
field absent from the object keeps its zero value. -/
def decodeInternalIDFields : JsonObj → InternalID → Except JErr InternalID
  | .nil, acc => .ok acc
  | .cons k v tl, acc =>
      if k = "table_id" then
        match decodeJsonUInt64 v with
        | .error e => .error e
        | .ok n => decodeInternalIDFields tl { acc with tableId := n }
      else if k = "offset" then
        match decodeJsonUInt64 v with
        | .error e => .error e
        | .ok n => decodeInternalIDFields tl { acc with offset := n }
      else decodeInternalIDFields tl acc

/-- Unmarshal of `InternalID`: stdlib `encoding/json` object-into-struct
decoding (JSON `null` is a successful no-op leaving the zero value). -/
def decodeInternalID : Json → Except JErr InternalID
  | .obj o => decodeInternalIDFields o ⟨0, 0⟩
  | .null => .ok ⟨0, 0⟩
  | _ => .error .typeErr

/-! ## Interval codec (`intervalValueJson` of `json.go`)

`time.Duration` is an `int64` count of nanoseconds. -/

def minInt64 : Int := -((2 ^ 63 : Nat) : Int)
def maxInt64 : Int := ((2 ^ 63 : Nat) : Int) - 1

/-- Two's-complement wraparound of Go `int64` arithmetic. -/
def wrap64 (x : Int) : Int :=
  (x + ((2 ^ 63 : Nat) : Int)) % ((2 ^ 64 : Nat) : Int) - ((2 ^ 63 : Nat) : Int)

/-- `time.Duration.Round` with multiple `1s` (Go standard library):
round to the nearest multiple of `10^9`, halfway away from zero,
saturating at the `int64` endpoints when the rounded value overflows.
`lessThanHalf(r, m)` is `r+r < m` (no wrap: both operands are below
`2^63` in magnitude at the call sites). -/
def durRound1s (d : Int) : Int :=
  let m : Int := 1000000000
  let r := Int.tmod d m
  if d < 0 then
    let r' := -r
    if r' + r' < m then d + r'
    else
      let d1 := wrap64 (d - m + r')
      if d1 < d then d1 else minInt64
  else
    if r + r < m then d - r
    else
      let d1 := wrap64 (d + m - r)
      if d1 > d then d1 else maxInt64

/-- `intervalValueJson.MarshalJSON`: emit `[whole_seconds, nanos]` where
`rounded := d.Round(1s)`, `wholeSecs := int64(rounded.Seconds())` and
`nanos := (d - rounded).Nanoseconds()`.

`rounded.Seconds()` is `float64(rounded/1e9) + float64(rounded%1e9)/1e9`
(both divisions truncated); `|rounded/1e9| ≤ 9223372036 < 2^53`, so
converting the float back to `int64` truncates the fractional part
exactly and the result is the truncated quotient `rounded.tdiv 1e9`. -/
def intervalMarshal (d : Int) : Int × Int :=
  let rounded := durRound1s d
  let wholeSecs := Int.tdiv rounded 1000000000
  let leftover := wrap64 (d - rounded)
  (wholeSecs, leftover)

/-- `intervalValueJson.UnmarshalJSON` arithmetic: reconstruct
`secs*1e9 + nanos` with Go's wrapping `int64` arithmetic. -/
def intervalUnmarshal (secs nanos : Int) : Int :=
  wrap64 (wrap64 (secs * 1000000000) + nanos)

/-! ## LogicalType family

Variant list and payload shapes from `internal/gen/logical_type/gen.go`
(declaration order preserved); wire shapes pinned by the tests in
`pkg/aali_graphdb` (`logicalTypeTest`). `Struct`/`Union` fields are ordered
`[]Twople[string, LogicalType]` slices in Go. -/

mutual
inductive LogicalType where
  | any | bool | serial | int64 | int32 | int16 | int8
  | uint64 | uint32 | uint16 | uint8 | int128 | double | float
  | date | interval | timestamp | timestampTz | timestampNs
  | timestampMs | timestampSec | internalID | string | blob
  | list (childType : LogicalType)
  | array (childType : LogicalType) (numElements : Int)
  | struct (fields : LTFields)
  | node | rel | recursiveRel
  | map (keyType valueType : LogicalType)
  | union (fields : LTFields)
  | uuid
  | decimal (precision scale : Int)
inductive LTFields where
  | nil : LTFields
  | cons (name : String) (t : LogicalType) (tl : LTFields) : LTFields
end

mutual
/-- Node count of a LogicalType; an induction measure. -/
def ltSizeN : LogicalType → Nat
  | .list c => ltSizeN c + 1
  | .array c _ => ltSizeN c + 1
  | .struct fs => ltFieldsSizeN fs + 1
  | .map k v => ltSizeN k + ltSizeN v + 1
  | .union fs => ltFieldsSizeN fs + 1
  | _ => 1
termination_by structural lt => lt
def ltFieldsSizeN : LTFields → Nat
  | .nil => 1
  | .cons _ t tl => ltSizeN t + ltFieldsSizeN tl + 1
termination_by structural fs => fs
end

/-- Element count (plus one) of a field list; a fuel measure for the
order-independent equality check below. -/
def ltFieldsCount : LTFields → Nat
  | .nil => 1
  | .cons _ _ tl => ltFieldsCount tl + 1

/-- The `tag()` method of each LogicalType variant. -/
def ltTag : LogicalType → String
  | .any => "Any" | .bool => "Bool" | .serial => "Serial"
  | .int64 => "Int64" | .int32 => "Int32" | .int16 => "Int16" | .int8 => "Int8"
  | .uint64 => "UInt64" | .uint32 => "UInt32" | .uint16 => "UInt16" | .uint8 => "UInt8"
  | .int128 => "Int128" | .double => "Double" | .float => "Float"
  | .date => "Date" | .interval => "Interval" | .timestamp => "Timestamp"
  | .timestampTz => "TimestampTz" | .timestampNs => "TimestampNs"
  | .timestampMs => "TimestampMs" | .timestampSec => "TimestampSec"
  | .internalID => "InternalID" | .string => "String" | .blob => "Blob"
  | .list _ => "List" | .array _ _ => "Array" | .struct _ => "Struct"
  | .node => "Node" | .rel => "Rel" | .recursiveRel => "RecursiveRel"
  | .map _ _ => "Map" | .union _ => "Union" | .uuid => "UUID"
  | .decimal _ _ => "Decimal"

/-- Whether the variant carries no payload (`UnitLogicalType` in the
generator's declarative list). -/
def ltIsUnit : LogicalType → Bool
  | .list _ | .array _ _ | .struct _ | .map _ _ | .union _ | .decimal _ _ => false
  | _ => true

/-- Unit-tag registry of the generic LogicalType decoder. -/
def ltUnitFromTag : String → Option LogicalType
  | "Any" => some .any | "Bool" => some .bool | "Serial" => some .serial
  | "Int64" => some .int64 | "Int32" => some .int32 | "Int16" => some .int16
  | "Int8" => some .int8 | "UInt64" => some .uint64 | "UInt32" => some .uint32
  | "UInt16" => some .uint16 | "UInt8" => some .uint8 | "Int128" => some .int128
  | "Double" => some .double | "Float" => some .float | "Date" => some .date
  | "Interval" => some .interval | "Timestamp" => some .timestamp
  | "TimestampTz" => some .timestampTz | "TimestampNs" => some .timestampNs
  | "TimestampMs" => some .timestampMs | "TimestampSec" => some .timestampSec
  | "InternalID" => some .internalID | "String" => some .string
  | "Blob" => some .blob | "Node" => some .node | "Rel" => some .rel
  | "RecursiveRel" => some .recursiveRel | "UUID" => some .uuid
  | _ => none

mutual
/-- Structural Boolean equality test on `LogicalType` (a hand-written
decision procedure; the derived decidable equality for this 34-variant
family generates a quadratic number of auxiliary lemmas).  Two types are
equal iff they are the same payload variant with equal payloads, or unit
variants with the same tag. -/
def ltBEq : LogicalType → LogicalType → Bool
  | .list c, .list c2 => ltBEq c c2
  | .array c n, .array c2 n2 => ltBEq c c2 && n = n2
  | .struct fs, .struct fs2 => ltFieldsBEq fs fs2
  | .map k v, .map k2 v2 => ltBEq k k2 && ltBEq v v2
  | .union fs, .union fs2 => ltFieldsBEq fs fs2
  | .decimal p s, .decimal p2 s2 => p = p2 && s = s2
  | a, b => ltIsUnit a && ltIsUnit b && ltTag a = ltTag b
termination_by structural lt lt2 => lt
/-- Structural Boolean equality test on `LTFields`. -/
def ltFieldsBEq : LTFields → LTFields → Bool
  | .nil, .nil => true
  | .cons n t tl, .cons n2 t2 tl2 => n = n2 && ltBEq t t2 && ltFieldsBEq tl tl2
  | _, _ => false
termination_by structural fs fs2 => fs
end

mutual
/-- Generated `MarshalJSON` of each LogicalType variant: route the tag and
the payload (generated payload struct, fields in declaration order with
their `json:` names) through the externally-tagged wrapper. -/
def encodeLogicalType : LogicalType → Json
  | .any => externallyTaggedMarshal "Any" none
  | .bool => externallyTaggedMarshal "Bool" none
  | .serial => externallyTaggedMarshal "Serial" none
  | .int64 => externallyTaggedMarshal "Int64" none
  | .int32 => externallyTaggedMarshal "Int32" none
  | .int16 => externallyTaggedMarshal "Int16" none
  | .int8 => externallyTaggedMarshal "Int8" none
  | .uint64 => externallyTaggedMarshal "UInt64" none
  | .uint32 => externallyTaggedMarshal "UInt32" none
  | .uint16 => externallyTaggedMarshal "UInt16" none
  | .uint8 => externallyTaggedMarshal "UInt8" none
  | .int128 => externallyTaggedMarshal "Int128" none
  | .double => externallyTaggedMarshal "Double" none
  | .float => externallyTaggedMarshal "Float" none
  | .date => externallyTaggedMarshal "Date" none
  | .interval => externallyTaggedMarshal "Interval" none
  | .timestamp => externallyTaggedMarshal "Timestamp" none
  | .timestampTz => externallyTaggedMarshal "TimestampTz" none
  | .timestampNs => externallyTaggedMarshal "TimestampNs" none
  | .timestampMs => externallyTaggedMarshal "TimestampMs" none
  | .timestampSec => externallyTaggedMarshal "TimestampSec" none
  | .internalID => externallyTaggedMarshal "InternalID" none
  | .string => externallyTaggedMarshal "String" none
  | .blob => externallyTaggedMarshal "Blob" none
  | .list c =>
      externallyTaggedMarshal "List"
        (some (.obj (.cons "child_type" (encodeLogicalType c) .nil)))
  | .array c n =>
      externallyTaggedMarshal "Array"
        (some (.obj (.cons "child_type" (encodeLogicalType c)
          (.cons "num_elements" (.num n 1) .nil))))
  | .struct fs =>
      externallyTaggedMarshal "Struct"
        (some (.obj (.cons "fields" (.arr (encodeLTFields fs)) .nil)))
  | .node => externallyTaggedMarshal "Node" none
  | .rel => externallyTaggedMarshal "Rel" none
  | .recursiveRel => externallyTaggedMarshal "RecursiveRel" none
  | .map k v =>
      externallyTaggedMarshal "Map"
        (some (.obj (.cons "key_type" (encodeLogicalType k)
          (.cons "value_type" (encodeLogicalType v) .nil))))
  | .union fs =>
      externallyTaggedMarshal "Union"
        (some (.obj (.cons "fields" (.arr (encodeLTFields fs)) .nil)))
  | .uuid => externallyTaggedMarshal "UUID" none
  | .decimal p s =>
      externallyTaggedMarshal "Decimal"
        (some (.obj (.cons "precision" (.num p 1) (.cons "scale" (.num s 1) .nil))))
termination_by structural lt => lt
/-- Marshal of `[]Twople[string, LogicalType]`: an array of 2-element
`[name, type]` arrays. -/
def encodeLTFields : LTFields → JsonArr
  | .nil => .nil
  | .cons n t tl =>
      .cons (.arr (.cons (.str n) (.cons (encodeLogicalType t) .nil)))
        (encodeLTFields tl)
termination_by structural fs => fs
end

/-- Last binding of a key in a JSON object, `none` when absent.  Models
`encoding/json` object-into-struct field matching: unknown keys are
ignored, an absent field keeps its zero value, a later duplicate key
overwrites an earlier one.  (Go decodes fields sequentially, so a
malformed value under an earlier duplicate of the same key would error
there; that corner is unreachable from any encoder output.) -/
def lookupLast : JsonObj → String → Option Json
  | .nil, _ => none
  | .cons k v tl, key =>
      match lookupLast tl key with
      | some r => some r
      | none => if k = key then some v else none

/-- A generated payload struct decodes from an object; JSON `null` is a
successful no-op (`encoding/json`), leaving every field at its zero value,
i.e. like an empty object. -/
def asObjFields : Json → Option JsonObj
  | .obj o => some o
  | .null => some .nil
  | _ => none

/-!
The recursive decoders are written with an explicit fuel argument (first
parameter, strictly decremented at every recursive call) so that recursion
is structural on a `Nat` and closed applications reduce cheaply.  The
fuel is an embedding artifact, not part of the modelled code: the
non-fueled wrappers below supply `sizeOf` of the input, which the
round-trip lemmas show sufficient.  `.error .typeErr` on fuel exhaustion
is unreachable from the wrappers.
-/

mutual
/-- Generic polymorphic LogicalType decoder (`logicalTypeUnmarshalHelper`;
the generated helper is not under `src/`, modelled from spec §4.6: look the
tag up in the closed registry — a bare string for a unit variant, the
single key of a single-key object for a payload variant — and decode the
payload with that variant's decoder, the payload struct fields being
matched per `encoding/json` as in `lookupLast`).  A payload object that
leaves a `LogicalType`-typed field absent would produce a Go nil
interface, which this embedding cannot represent; it is reported as
`missingField` (unreachable from any encoding). -/
def decodeLogicalTypeF : Nat → Json → Except JErr LogicalType
  | 0, _ => .error .typeErr
  | _ + 1, .str s =>
      match ltUnitFromTag s with
      | some lt => .ok lt
      | none => .error (.unknownTag s)
  | fuel + 1, .obj (.cons "List" p .nil) =>
      match asObjFields p with
      | none => .error .typeErr
      | some o =>
          match lookupLast o "child_type" with
          | none => .error (.missingField "child_type")
          | some cj =>
              match decodeLogicalTypeF fuel cj with
              | .error e => .error e
              | .ok c => .ok (.list c)
  | fuel + 1, .obj (.cons "Array" p .nil) =>
      match asObjFields p with
      | none => .error .typeErr
      | some o =>
          match lookupLast o "child_type" with
          | none => .error (.missingField "child_type")
          | some cj =>
              match decodeLogicalTypeF fuel cj with
              | .error e => .error e
              | .ok c =>
                  match lookupLast o "num_elements" with
                  | none => .ok (.array c 0)
                  | some nj =>
                      match decodeJsonUInt64 nj with
                      | .error e => .error e
                      | .ok n => .ok (.array c n)
  | fuel + 1, .obj (.cons "Struct" p .nil) =>
      match asObjFields p with
      | none => .error .typeErr
      | some o =>
          match lookupLast o "fields" with
          | none => .ok (.struct .nil)
          | some .null => .ok (.struct .nil)
          | some (.arr a) =>
              match decodeLTFieldsArrF fuel a with
              | .error e => .error e
              | .ok fs => .ok (.struct fs)
          | some _ => .error .typeErr
  | fuel + 1, .obj (.cons "Map" p .nil) =>
      match asObjFields p with
      | none => .error .typeErr
      | some o =>
          match lookupLast o "key_type" with
          | none => .error (.missingField "key_type")
          | some kj =>
              match decodeLogicalTypeF fuel kj with
              | .error e => .error e
              | .ok kt =>
                  match lookupLast o "value_type" with
                  | none => .error (.missingField "value_type")
                  | some vj =>
                      match decodeLogicalTypeF fuel vj with
                      | .error e => .error e
                      | .ok vt => .ok (.map kt vt)
  | fuel + 1, .obj (.cons "Union" p .nil) =>
      match asObjFields p with
      | none => .error .typeErr
      | some o =>
          match lookupLast o "fields" with
          | none => .ok (.union .nil)
          | some .null => .ok (.union .nil)
          | some (.arr a) =>
              match decodeLTFieldsArrF fuel a with
              | .error e => .error e
              | .ok fs => .ok (.union fs)
          | some _ => .error .typeErr
  | _ + 1, .obj (.cons "Decimal" p .nil) =>
      match asObjFields p with
      | none => .error .typeErr
      | some o =>
          match (match lookupLast o "precision" with
                 | none => .ok 0
                 | some pj => decodeJsonUInt32 pj : Except JErr Int) with
          | .error e => .error e
          | .ok pr =>
              match (match lookupLast o "scale" with
                     | none => .ok 0
                     | some sj => decodeJsonUInt32 sj : Except JErr Int) with
              | .error e => .error e
              | .ok sc => .ok (.decimal pr sc)
  | _ + 1, .obj (.cons k _ .nil) => .error (.unknownTag k)
  | _ + 1, .obj o => .error (.unexpectedKeyCount o.length)
  | _ + 1, .null => .error (.unexpectedKeyCount 0)
  | _ + 1, _ => .error .typeErr
/-- Unmarshal of `[]Twople[string, logicalTypeUnmarshalHelper]`: each
element is a 2-element `[name, type]` array (`Twople.UnmarshalJSON`
inlined). -/
def decodeLTFieldsArrF : Nat → JsonArr → Except JErr LTFields
  | 0, _ => .error .typeErr
  | _ + 1, .nil => .ok .nil
  | fuel + 1, .cons (.arr (.cons (.str n) (.cons tj .nil))) tl =>
      match decodeLogicalTypeF fuel tj with
      | .error e => .error e
      | .ok t =>
          match decodeLTFieldsArrF fuel tl with
          | .error e => .error e
          | .ok fs => .ok (.cons n t fs)
  | _ + 1, .cons (.arr (.cons _ (.cons _ .nil))) _ => .error .typeErr
  | _ + 1, .cons (.arr xs) _ => .error (.malformedTuple xs.length)
  | _ + 1, .cons .null _ => .error (.malformedTuple 0)
  | _ + 1, .cons _ _ => .error .typeErr
end

/-- Generic polymorphic LogicalType decoder, fuel supplied. -/
def decodeLogicalType (j : Json) : Except JErr LogicalType :=
  decodeLogicalTypeF j.size j

/-- Decoder of `[]Twople[string, LogicalType]` arrays, fuel supplied. -/
def decodeLTFieldsArr (a : JsonArr) : Except JErr LTFields :=
  decodeLTFieldsArrF a.size a

mutual
/-- Well-formedness of a LogicalType as a Go value: unsigned payload fields
are within their machine-integer ranges. -/
def ltWF : LogicalType → Bool
  | .list c => ltWF c
  | .array c n => ltWF c && decide (0 ≤ n) && decide (n < 18446744073709551616)
  | .struct fs => ltFieldsWF fs
  | .map k v => ltWF k && ltWF v
  | .union fs => ltFieldsWF fs
  | .decimal p s => decide (0 ≤ p) && decide (p < 4294967296) &&
      decide (0 ≤ s) && decide (s < 4294967296)
  | _ => true
termination_by structural lt => lt
def ltFieldsWF : LTFields → Bool
  | .nil => true
  | .cons _ t tl => ltWF t && ltFieldsWF tl
termination_by structural fs => fs
end


/-! ## Value family

Variant list and payload shapes from `internal/gen/value/gen.go`
(declaration order preserved); wire shapes pinned by `value_test.go`.
Signed Go integers are `Int` with range invariants; `uint*` fields are
nonnegative range-restricted `Int`; `float64`/`float32` are exact rational
`num/den` pairs; `time.Time`, `civil.Date`, `uuid.UUID` and
`decimal.Decimal` payloads are carried as their canonical string
rendering (see the header).  Go's unordered `map` fields
(`Struct`/`Node`/`Rel` properties, `Map` pairs, `Union` types) are carried
as pair lists in one of the iteration orders the encoder may emit. -/

mutual
inductive Value where
  | null (logicalType : LogicalType) : Value
  | bool (b : Bool) : Value
  | int64 (i : Int) : Value
  | int32 (i : Int) : Value
  | int16 (i : Int) : Value
  | int8 (i : Int) : Value
  | uint64 (n : Int) : Value
  | uint32 (n : Int) : Value
  | uint16 (n : Int) : Value
  | uint8 (n : Int) : Value
  | int128 (i : Int) : Value
  | double (num : Int) (den : Nat) : Value
  | float (num : Int) (den : Nat) : Value
  | date (s : String) : Value
  | interval (d : Int) : Value
  | timestamp (s : String) : Value
  | timestampTz (s : String) : Value
  | timestampNs (s : String) : Value
  | timestampMs (s : String) : Value
  | timestampSec (s : String) : Value
  | internalID (id : InternalID) : Value
  | string (s : String) : Value
  | blob (bytes : List Int) : Value
  | list (logicalType : LogicalType) (values : ValueList) : Value
  | array (logicalType : LogicalType) (values : ValueList) : Value
  | struct (fields : NamedValues) : Value
  | node (id : InternalID) (label : String) (properties : NamedValues) : Value
  | rel (srcNode dstNode : InternalID) (label : String) (properties : NamedValues) : Value
  | recursiveRel (nodes : NodeValues) (rels : RelValues) : Value
  | map (keyType valueType : LogicalType) (pairs : ValuePairs) : Value
  | union (types : LTFields) (value : Value) : Value
  | uuid (s : String) : Value
  | decimal (s : String) : Value
inductive ValueList where
  | nil : ValueList
  | cons (hd : Value) (tl : ValueList) : ValueList
inductive NamedValues where
  | nil : NamedValues
  | cons (key : String) (value : Value) (tl : NamedValues) : NamedValues
inductive ValuePairs where
  | nil : ValuePairs
  | cons (key val : Value) (tl : ValuePairs) : ValuePairs
inductive NodeValues where
  | nil : NodeValues
  | cons (id : InternalID) (label : String) (properties : NamedValues)
      (tl : NodeValues) : NodeValues
inductive RelValues where
  | nil : RelValues
  | cons (srcNode dstNode : InternalID) (label : String)
      (properties : NamedValues) (tl : RelValues) : RelValues
end

/-- The `tag()` method of each Value variant. -/
def valueTagStr : Value → String
  | .null _ => "Null" | .bool _ => "Bool"
  | .int64 _ => "Int64" | .int32 _ => "Int32" | .int16 _ => "Int16"
  | .int8 _ => "Int8" | .uint64 _ => "UInt64" | .uint32 _ => "UInt32"
  | .uint16 _ => "UInt16" | .uint8 _ => "UInt8" | .int128 _ => "Int128"
  | .double _ _ => "Double" | .float _ _ => "Float" | .date _ => "Date"
  | .interval _ => "Interval" | .timestamp _ => "Timestamp"
  | .timestampTz _ => "TimestampTz" | .timestampNs _ => "TimestampNs"
  | .timestampMs _ => "TimestampMs" | .timestampSec _ => "TimestampSec"
  | .internalID _ => "InternalID" | .string _ => "String" | .blob _ => "Blob"
  | .list _ _ => "List" | .array _ _ => "Array" | .struct _ => "Struct"
  | .node _ _ _ => "Node" | .rel _ _ _ _ => "Rel"
  | .recursiveRel _ _ => "RecursiveRel" | .map _ _ _ => "Map"
  | .union _ _ => "Union" | .uuid _ => "UUID" | .decimal _ => "Decimal"

/-- The closed tag registry of the generic Value decoder (`valtypes` in
`internal/gen/value/gen.go`). -/
def valueTags : List String :=
  ["Null", "Bool", "Int64", "Int32", "Int16", "Int8", "UInt64", "UInt32",
   "UInt16", "UInt8", "Int128", "Double", "Float", "Date", "Interval",
   "Timestamp", "TimestampTz", "TimestampNs", "TimestampMs", "TimestampSec",
   "InternalID", "String", "Blob", "List", "Array", "Struct", "Node", "Rel",
   "RecursiveRel", "Map", "Union", "UUID", "Decimal"]

/-- `blobValueJson.MarshalJSON`: widen each byte to `uint16` and marshal
the numeric array. -/
def blobMarshal : List Int → JsonArr
  | [] => .nil
  | b :: tl => .cons (.num b 1) (blobMarshal tl)

/-- Blob payload decode (the generated glue is not under `src/`; modelled
from spec §4.3: each element is decoded as an unsigned 16-bit integer and
narrowed to a byte, an element outside 0–255 failing `InvalidByteValue`). -/
def decodeBlobArr : JsonArr → Except JErr (List Int)
  | .nil => .ok []
  | .cons el tl =>
      match decodeJsonUInt16 el with
      | .error e => .error e
      | .ok n =>
          if 255 < n then .error (.invalidByteValue n)
          else
            match decodeBlobArr tl with
            | .error e => .error e
            | .ok bs => .ok (n :: bs)

mutual
/-- Generated `MarshalJSON` of each Value variant: tag plus payload through
the externally-tagged wrapper (every Value variant carries a payload).
Payload shapes follow the converter types of `json.go` and the field
declarations of `internal/gen/value/gen.go`; the wire forms are pinned by
`value_test.go`. -/
def encodeValue : Value → Json
  | .null lt => externallyTaggedMarshal "Null" (some (encodeLogicalType lt))
  | .bool b => externallyTaggedMarshal "Bool" (some (.bool b))
  | .int64 i => externallyTaggedMarshal "Int64" (some (.num i 1))
  | .int32 i => externallyTaggedMarshal "Int32" (some (.num i 1))
  | .int16 i => externallyTaggedMarshal "Int16" (some (.num i 1))
  | .int8 i => externallyTaggedMarshal "Int8" (some (.num i 1))
  | .uint64 n => externallyTaggedMarshal "UInt64" (some (.num n 1))
  | .uint32 n => externallyTaggedMarshal "UInt32" (some (.num n 1))
  | .uint16 n => externallyTaggedMarshal "UInt16" (some (.num n 1))
  | .uint8 n => externallyTaggedMarshal "UInt8" (some (.num n 1))
  | .int128 i => externallyTaggedMarshal "Int128" (some (.num i 1))
  | .double n d => externallyTaggedMarshal "Double" (some (.num n d))
  | .float n d => externallyTaggedMarshal "Float" (some (.num n d))
  | .date s => externallyTaggedMarshal "Date" (some (.str s))
  | .interval d =>
      externallyTaggedMarshal "Interval"
        (some (.arr (.cons (.num (intervalMarshal d).1 1)
          (.cons (.num (intervalMarshal d).2 1) .nil))))
  | .timestamp s => externallyTaggedMarshal "Timestamp" (some (.str s))
  | .timestampTz s => externallyTaggedMarshal "TimestampTz" (some (.str s))
  | .timestampNs s => externallyTaggedMarshal "TimestampNs" (some (.str s))
  | .timestampMs s => externallyTaggedMarshal "TimestampMs" (some (.str s))
  | .timestampSec s => externallyTaggedMarshal "TimestampSec" (some (.str s))
  | .internalID id => externallyTaggedMarshal "InternalID" (some (encodeInternalID id))
  | .string s => externallyTaggedMarshal "String" (some (.str s))
  | .blob bs => externallyTaggedMarshal "Blob" (some (.arr (blobMarshal bs)))
  | .list lt vs =>
      externallyTaggedMarshal "List"
        (some (.arr (.cons (encodeLogicalType lt)
          (.cons (.arr (encodeValueList vs)) .nil))))
  | .array lt vs =>
      externallyTaggedMarshal "Array"
        (some (.arr (.cons (encodeLogicalType lt)
          (.cons (.arr (encodeValueList vs)) .nil))))
  | .struct fs =>
      externallyTaggedMarshal "Struct" (some (.arr (encodeNamedValues fs)))
  | .node id label props =>
      externallyTaggedMarshal "Node"
        (some (.obj (.cons "id" (encodeInternalID id)
          (.cons "label" (.str label)
            (.cons "properties" (.arr (encodeNamedValues props)) .nil)))))
  | .rel src dst label props =>
      externallyTaggedMarshal "Rel"
        (some (.obj (.cons "src_node" (encodeInternalID src)
          (.cons "dst_node" (encodeInternalID dst)
            (.cons "label" (.str label)
              (.cons "properties" (.arr (encodeNamedValues props)) .nil))))))
  | .recursiveRel ns rs =>
      externallyTaggedMarshal "RecursiveRel"
        (some (.obj (.cons "nodes" (.arr (encodeNodeValues ns))
          (.cons "rels" (.arr (encodeRelValues rs)) .nil))))
  | .map kt vt ps =>
      externallyTaggedMarshal "Map"
        (some (.arr (.cons (.arr (.cons (encodeLogicalType kt)
            (.cons (encodeLogicalType vt) .nil)))
          (.cons (.arr (encodeValuePairs ps)) .nil))))
  | .union ts v =>
      externallyTaggedMarshal "Union"
        (some (.obj (.cons "types" (.arr (encodeLTFields ts))
          (.cons "value" (encodeValue v) .nil))))
  | .uuid s => externallyTaggedMarshal "UUID" (some (.str s))
  | .decimal s => externallyTaggedMarshal "Decimal" (some (.str s))
termination_by structural v => v
/-- Marshal of `[]Value` (`valueArrayJson`). -/
def encodeValueList : ValueList → JsonArr
  | .nil => .nil
  | .cons v tl => .cons (encodeValue v) (encodeValueList tl)
termination_by structural vs => vs
/-- Marshal of `namedFieldsTwoples` (`[]Twople[string, Value]`), in the
pair order this value carries (one of the orders Go map iteration may
emit). -/
def encodeNamedValues : NamedValues → JsonArr
  | .nil => .nil
  | .cons k v tl =>
      .cons (.arr (.cons (.str k) (.cons (encodeValue v) .nil)))
        (encodeNamedValues tl)
termination_by structural fs => fs
/-- Marshal of `valueMapJson` (`[]Twople[Value, Value]`). -/
def encodeValuePairs : ValuePairs → JsonArr
  | .nil => .nil
  | .cons k v tl =>
      .cons (.arr (.cons (encodeValue k) (.cons (encodeValue v) .nil)))
        (encodeValuePairs tl)
termination_by structural ps => ps
/-- Marshal of `[]NodeValue`: each element is an externally-tagged Node. -/
def encodeNodeValues : NodeValues → JsonArr
  | .nil => .nil
  | .cons id label props tl =>
      .cons (externallyTaggedMarshal "Node"
        (some (.obj (.cons "id" (encodeInternalID id)
          (.cons "label" (.str label)
            (.cons "properties" (.arr (encodeNamedValues props)) .nil))))))
        (encodeNodeValues tl)
termination_by structural ns => ns
/-- Marshal of `[]RelValue`: each element is an externally-tagged Rel. -/
def encodeRelValues : RelValues → JsonArr
  | .nil => .nil
  | .cons src dst label props tl =>
      .cons (externallyTaggedMarshal "Rel"
        (some (.obj (.cons "src_node" (encodeInternalID src)
          (.cons "dst_node" (encodeInternalID dst)
            (.cons "label" (.str label)
              (.cons "properties" (.arr (encodeNamedValues props)) .nil)))))))
        (encodeRelValues tl)
termination_by structural rs => rs
end


mutual
/-- Generic polymorphic Value decoder (`valueUnmarshalHelper`; the
generated helper is not under `src/`, modelled from spec §4.6: determine
the variant by tag lookup against the closed registry — the single key of
a single-key object; every Value variant carries a payload, so a bare
string matches no registry entry — then decode the payload with that
variant's decoder). -/
def decodeValueF : Nat → Json → Except JErr Value
  | 0, _ => .error .typeErr
  | fuel + 1, .obj (.cons k p .nil) => decodeValuePayloadF fuel k p
  | _ + 1, .obj o => .error (.unexpectedKeyCount o.length)
  | _ + 1, .null => .error (.unexpectedKeyCount 0)
  | _ + 1, .str s => .error (.unknownTag s)
  | _ + 1, _ => .error .typeErr
/-- Per-variant payload decoders, dispatched by tag (shared between the
generic decoder and the typed externally-tagged decoders).  A tag not in
the registry fails `unknownTag`. -/
def decodeValuePayloadF : Nat → String → Json → Except JErr Value
  | 0, _, _ => .error .typeErr
  | fuel + 1, "Null", p =>
      match decodeLogicalTypeF (fuel + 1) p with
      | .error e => .error e
      | .ok lt => .ok (.null lt)
  | _ + 1, "Bool", p =>
      match decodeJsonBool p with
      | .error e => .error e
      | .ok b => .ok (.bool b)
  | _ + 1, "Int64", p =>
      match decodeJsonInt64 p with
      | .error e => .error e
      | .ok i => .ok (.int64 i)
  | _ + 1, "Int32", p =>
      match decodeJsonInt32 p with
      | .error e => .error e
      | .ok i => .ok (.int32 i)
  | _ + 1, "Int16", p =>
      match decodeJsonInt16 p with
      | .error e => .error e
      | .ok i => .ok (.int16 i)
  | _ + 1, "Int8", p =>
      match decodeJsonInt8 p with
      | .error e => .error e
      | .ok i => .ok (.int8 i)
  | _ + 1, "UInt64", p =>
      match decodeJsonUInt64 p with
      | .error e => .error e
      | .ok n => .ok (.uint64 n)
  | _ + 1, "UInt32", p =>
      match decodeJsonUInt32 p with
      | .error e => .error e
      | .ok n => .ok (.uint32 n)
  | _ + 1, "UInt16", p =>
      match decodeJsonUInt16 p with
      | .error e => .error e
      | .ok n => .ok (.uint16 n)
  | _ + 1, "UInt8", p =>
      match decodeJsonUInt8 p with
      | .error e => .error e
      | .ok n => .ok (.uint8 n)
  | _ + 1, "Int128", p =>
      match decodeJsonInt64 p with
      | .error e => .error e
      | .ok i => .ok (.int128 i)
  | _ + 1, "Double", p =>
      match decodeJsonNum p with
      | .error e => .error e
      | .ok nd => .ok (.double nd.1 nd.2)
  | _ + 1, "Float", p =>
      match decodeJsonNum p with
      | .error e => .error e
      | .ok nd => .ok (.float nd.1 nd.2)
  | _ + 1, "Date", p =>
      match decodeJsonString p with
      | .error e => .error e
      | .ok s => .ok (.date s)
  | _ + 1, "Interval", p =>
      match p with
      | .arr (.cons a (.cons b .nil)) =>
          match decodeJsonInt64 a with
          | .error e => .error e
          | .ok x =>
              match decodeJsonInt64 b with
              | .error e => .error e
              | .ok y => .ok (.interval (intervalUnmarshal x y))
      | .arr elems => .error (.malformedTuple elems.length)
      | .null => .error (.malformedTuple 0)
      | _ => .error .typeErr
  | _ + 1, "Timestamp", p =>
      match decodeJsonString p with
      | .error e => .error e
      | .ok s => .ok (.timestamp s)
  | _ + 1, "TimestampTz", p =>
      match decodeJsonString p with
      | .error e => .error e
      | .ok s => .ok (.timestampTz s)
  | _ + 1, "TimestampNs", p =>
      match decodeJsonString p with
      | .error e => .error e
      | .ok s => .ok (.timestampNs s)
  | _ + 1, "TimestampMs", p =>
      match decodeJsonString p with
      | .error e => .error e
      | .ok s => .ok (.timestampMs s)
  | _ + 1, "TimestampSec", p =>
      match decodeJsonString p with
      | .error e => .error e
      | .ok s => .ok (.timestampSec s)
  | _ + 1, "InternalID", p =>
      match decodeInternalID p with
      | .error e => .error e
      | .ok id => .ok (.internalID id)
  | _ + 1, "String", p =>
      match decodeJsonString p with
      | .error e => .error e
      | .ok s => .ok (.string s)
  | _ + 1, "Blob", p =>
      match p with
      | .arr a =>
          match decodeBlobArr a with
          | .error e => .error e
          | .ok bs => .ok (.blob bs)
      | .null => .ok (.blob [])
      | _ => .error .typeErr
  | fuel + 1, "List", p =>
      match p with
      | .arr (.cons ltj (.cons vsj .nil)) =>
          match decodeLogicalTypeF (fuel + 1) ltj with
          | .error e => .error e
          | .ok lt =>
              match vsj with
              | .arr a =>
                  match decodeValueListF fuel a with
                  | .error e => .error e
                  | .ok vs => .ok (.list lt vs)
              | .null => .ok (.list lt .nil)
              | _ => .error .typeErr
      | .arr elems => .error (.malformedTuple elems.length)
      | .null => .error (.malformedTuple 0)
      | _ => .error .typeErr
  | fuel + 1, "Array", p =>
      match p with
      | .arr (.cons ltj (.cons vsj .nil)) =>
          match decodeLogicalTypeF (fuel + 1) ltj with
          | .error e => .error e
          | .ok lt =>
              match vsj with
              | .arr a =>
                  match decodeValueListF fuel a with
                  | .error e => .error e
                  | .ok vs => .ok (.array lt vs)
              | .null => .ok (.array lt .nil)
              | _ => .error .typeErr
      | .arr elems => .error (.malformedTuple elems.length)
      | .null => .error (.malformedTuple 0)
      | _ => .error .typeErr
  | fuel + 1, "Struct", p =>
      match p with
      | .arr a =>
          match decodeNamedValuesF fuel a with
          | .error e => .error e
          | .ok fs => .ok (.struct fs)
      | .null => .ok (.struct .nil)
      | _ => .error .typeErr
  | fuel + 1, "Node", p => decodeNodePayloadF (fuel + 1) p
  | fuel + 1, "Rel", p => decodeRelPayloadF (fuel + 1) p
  | fuel + 1, "RecursiveRel", p =>
      match asObjFields p with
      | none => .error .typeErr
      | some o =>
          match (match lookupLast o "nodes" with
                 | none => .ok .nil
                 | some .null => .ok .nil
                 | some (.arr a) => decodeNodeValuesF fuel a
                 | some _ => .error .typeErr : Except JErr NodeValues) with
          | .error e => .error e
          | .ok ns =>
              match (match lookupLast o "rels" with
                     | none => .ok .nil
                     | some .null => .ok .nil
                     | some (.arr a) => decodeRelValuesF fuel a
                     | some _ => .error .typeErr : Except JErr RelValues) with
              | .error e => .error e
              | .ok rs => .ok (.recursiveRel ns rs)
  | fuel + 1, "Map", p =>
      match p with
      | .arr (.cons tj (.cons pj .nil)) =>
          match tj with
          | .arr (.cons ktj (.cons vtj .nil)) =>
              match decodeLogicalTypeF (fuel + 1) ktj with
              | .error e => .error e
              | .ok kt =>
                  match decodeLogicalTypeF (fuel + 1) vtj with
                  | .error e => .error e
                  | .ok vt =>
                      match pj with
                      | .arr a =>
                          match decodeValuePairsF fuel a with
                          | .error e => .error e
                          | .ok ps => .ok (.map kt vt ps)
                      | .null => .ok (.map kt vt .nil)
                      | _ => .error .typeErr
          | .arr elems => .error (.malformedTuple elems.length)
          | .null => .error (.malformedTuple 0)
          | _ => .error .typeErr
      | .arr elems => .error (.malformedTuple elems.length)
      | .null => .error (.malformedTuple 0)
      | _ => .error .typeErr
  | fuel + 1, "Union", p =>
      match asObjFields p with
      | none => .error .typeErr
      | some o =>
          match (match lookupLast o "types" with
                 | none => .ok .nil
                 | some .null => .ok .nil
                 | some (.arr a) => decodeLTFieldsArrF (fuel + 1) a
                 | some _ => .error .typeErr : Except JErr LTFields) with
          | .error e => .error e
          | .ok ts =>
              match lookupLast o "value" with
              | none => .error (.missingField "value")
              | some vj =>
                  match decodeValueF fuel vj with
                  | .error e => .error e
                  | .ok v => .ok (.union ts v)
  | _ + 1, "UUID", p =>
      match decodeJsonString p with
      | .error e => .error e
      | .ok s => .ok (.uuid s)
  | _ + 1, "Decimal", p =>
      match decodeJsonString p with
      | .error e => .error e
      | .ok s => .ok (.decimal s)
  | _ + 1, tag, _ => .error (.unknownTag tag)
/-- Untagged Node payload `{id, label, properties}` (stdlib field
matching; absent fields keep their zero value; a Go nil `Value` inside
`properties` cannot arise since properties decode through the generic
decoder). -/
def decodeNodePayloadF : Nat → Json → Except JErr Value
  | 0, _ => .error .typeErr
  | fuel + 1, p =>
      match asObjFields p with
      | none => .error .typeErr
      | some o =>
          match (match lookupLast o "id" with
                 | none => .ok ⟨0, 0⟩
                 | some ij => decodeInternalID ij : Except JErr InternalID) with
          | .error e => .error e
          | .ok id =>
              match (match lookupLast o "label" with
                     | none => .ok ""
                     | some lj => decodeJsonString lj : Except JErr String) with
              | .error e => .error e
              | .ok label =>
                  match (match lookupLast o "properties" with
                         | none => .ok .nil
                         | some .null => .ok .nil
                         | some (.arr a) => decodeNamedValuesF fuel a
                         | some _ => .error .typeErr : Except JErr NamedValues) with
                  | .error e => .error e
                  | .ok props => .ok (.node id label props)
/-- Untagged Rel payload `{src_node, dst_node, label, properties}`. -/
def decodeRelPayloadF : Nat → Json → Except JErr Value
  | 0, _ => .error .typeErr
  | fuel + 1, p =>
      match asObjFields p with
      | none => .error .typeErr
      | some o =>
          match (match lookupLast o "src_node" with
                 | none => .ok ⟨0, 0⟩
                 | some ij => decodeInternalID ij : Except JErr InternalID) with
          | .error e => .error e
          | .ok src =>
              match (match lookupLast o "dst_node" with
                     | none => .ok ⟨0, 0⟩
                     | some ij => decodeInternalID ij : Except JErr InternalID) with
              | .error e => .error e
              | .ok dst =>
                  match (match lookupLast o "label" with
                         | none => .ok ""
                         | some lj => decodeJsonString lj : Except JErr String) with
                  | .error e => .error e
                  | .ok label =>
                      match (match lookupLast o "properties" with
                             | none => .ok .nil
                             | some .null => .ok .nil
                             | some (.arr a) => decodeNamedValuesF fuel a
                             | some _ => .error .typeErr : Except JErr NamedValues) with
                      | .error e => .error e
                      | .ok props => .ok (.rel src dst label props)
/-- Unmarshal of `[]valueUnmarshalHelper` (`valueArrayJson`): each element
through the generic decoder. -/
def decodeValueListF : Nat → JsonArr → Except JErr ValueList
  | 0, _ => .error .typeErr
  | _ + 1, .nil => .ok .nil
  | fuel + 1, .cons j tl =>
      match decodeValueF fuel j with
      | .error e => .error e
      | .ok v =>
          match decodeValueListF fuel tl with
          | .error e => .error e
          | .ok vs => .ok (.cons v vs)
/-- Unmarshal of `namedFieldsTwoples`: 2-element `[name, value]` arrays
(`Twople.UnmarshalJSON` inlined), values through the generic decoder. -/
def decodeNamedValuesF : Nat → JsonArr → Except JErr NamedValues
  | 0, _ => .error .typeErr
  | _ + 1, .nil => .ok .nil
  | fuel + 1, .cons (.arr (.cons (.str k) (.cons vj .nil))) tl =>
      match decodeValueF fuel vj with
      | .error e => .error e
      | .ok v =>
          match decodeNamedValuesF fuel tl with
          | .error e => .error e
          | .ok fs => .ok (.cons k v fs)
  | _ + 1, .cons (.arr (.cons _ (.cons _ .nil))) _ => .error .typeErr
  | _ + 1, .cons (.arr xs) _ => .error (.malformedTuple xs.length)
  | _ + 1, .cons .null _ => .error (.malformedTuple 0)
  | _ + 1, .cons _ _ => .error .typeErr
/-- Unmarshal of `valueMapJson` pair lists: 2-element `[key, value]`
arrays, both sides through the generic decoder. -/
def decodeValuePairsF : Nat → JsonArr → Except JErr ValuePairs
  | 0, _ => .error .typeErr
  | _ + 1, .nil => .ok .nil
  | fuel + 1, .cons (.arr (.cons kj (.cons vj .nil))) tl =>
      match decodeValueF fuel kj with
      | .error e => .error e
      | .ok k =>
          match decodeValueF fuel vj with
          | .error e => .error e
          | .ok v =>
              match decodeValuePairsF fuel tl with
              | .error e => .error e
              | .ok ps => .ok (.cons k v ps)
  | _ + 1, .cons (.arr xs) _ => .error (.malformedTuple xs.length)
  | _ + 1, .cons .null _ => .error (.malformedTuple 0)
  | _ + 1, .cons _ _ => .error .typeErr
/-- Unmarshal of `[]NodeValue`: externally-tagged Node elements (spec
§4.2 applied to the Node variant). -/
def decodeNodeValuesF : Nat → JsonArr → Except JErr NodeValues
  | 0, _ => .error .typeErr
  | _ + 1, .nil => .ok .nil
  | fuel + 1, .cons (.obj (.cons "Node" p .nil)) tl =>
      match decodeNodePayloadF fuel p with
      | .error e => .error e
      | .ok v =>
          match decodeNodeValuesF fuel tl with
          | .error e => .error e
          | .ok ns =>
              match v with
              | .node id label props => .ok (.cons id label props ns)
              | _ => .error .typeErr
  | _ + 1, .cons _ _ => .error .typeErr
/-- Unmarshal of `[]RelValue`: externally-tagged Rel elements. -/
def decodeRelValuesF : Nat → JsonArr → Except JErr RelValues
  | 0, _ => .error .typeErr
  | _ + 1, .nil => .ok .nil
  | fuel + 1, .cons (.obj (.cons "Rel" p .nil)) tl =>
      match decodeRelPayloadF fuel p with
      | .error e => .error e
      | .ok v =>
          match decodeRelValuesF fuel tl with
          | .error e => .error e
          | .ok rs =>
              match v with
              | .rel src dst label props => .ok (.cons src dst label props rs)
              | _ => .error .typeErr
  | _ + 1, .cons _ _ => .error .typeErr
end

/-- Generic polymorphic Value decoder, fuel supplied. -/
def decodeValue (j : Json) : Except JErr Value :=
  decodeValueF j.size j

/-- Typed externally-tagged decoder of the variant with the given tag
(`externallyTagged[T].UnmarshalJSON` composed with the generated variant
glue, which is not under `src/`; the payload decoder is the same one the
generic registry dispatches to).  Faithful to the wrapper's control flow:
on a single-key object the payload is decoded (as the expected variant)
*before* the key is compared with the tag; a bare string equal to the tag
would leave the wrapper's value nil, which no payload-carrying Value
variant can represent. -/
def typedDecodeValue (tag : String) : Json → Except JErr Value
  | .obj (.cons k p .nil) =>
      match decodeValuePayloadF (p.size + 2) tag p with
      | .error e => .error e
      | .ok v => if k = tag then .ok v else .error (.tagMismatchKey tag k)
  | .obj o => .error (.unexpectedKeyCount o.length)
  | .null => .error (.unexpectedKeyCount 0)
  | .str s =>
      if s = tag then .error (.missingField "value")
      else .error (.tagMismatchString s tag)
  | _ => .error .typeErr


mutual
/-- Node count of a Value; used as fuel for the order-independent
equality check. -/
def valueSize : Value → Nat
  | .null _ | .bool _ | .int64 _ | .int32 _ | .int16 _ | .int8 _
  | .uint64 _ | .uint32 _ | .uint16 _ | .uint8 _ | .int128 _
  | .double _ _ | .float _ _ | .date _ | .interval _ | .timestamp _
  | .timestampTz _ | .timestampNs _ | .timestampMs _ | .timestampSec _
  | .internalID _ | .string _ | .blob _ | .uuid _ | .decimal _ => 1
  | .list _ vs => valueListSize vs + 1
  | .array _ vs => valueListSize vs + 1
  | .struct fs => namedValuesSize fs + 1
  | .node _ _ props => namedValuesSize props + 1
  | .rel _ _ _ props => namedValuesSize props + 1
  | .recursiveRel ns rs => nodeValuesSize ns + relValuesSize rs + 1
  | .map _ _ ps => valuePairsSize ps + 1
  | .union ts v => ltFieldsCount ts + valueSize v + 1
termination_by structural v => v
def valueListSize : ValueList → Nat
  | .nil => 1
  | .cons v tl => valueSize v + valueListSize tl + 1
termination_by structural vs => vs
def namedValuesSize : NamedValues → Nat
  | .nil => 1
  | .cons _ v tl => valueSize v + namedValuesSize tl + 1
termination_by structural fs => fs
def valuePairsSize : ValuePairs → Nat
  | .nil => 1
  | .cons k v tl => valueSize k + valueSize v + valuePairsSize tl + 1
termination_by structural ps => ps
def nodeValuesSize : NodeValues → Nat
  | .nil => 1
  | .cons _ _ props tl => namedValuesSize props + nodeValuesSize tl + 1
termination_by structural ns => ns
def relValuesSize : RelValues → Nat
  | .nil => 1
  | .cons _ _ _ props tl => namedValuesSize props + relValuesSize tl + 1
termination_by structural rs => rs
end

mutual
/-- Well-formedness of a Value as a Go value: machine integers within
range, blob bytes within 0–255, and interval durations at least one
second away from the `int64` endpoints (where `Duration.Round` would
saturate — see the saturation counterexample). -/
def valueWF : Value → Bool
  | .null lt => ltWF lt
  | .bool _ => true
  | .int64 i => decide (-9223372036854775808 ≤ i) && decide (i < 9223372036854775808)
  | .int32 i => decide (-2147483648 ≤ i) && decide (i < 2147483648)
  | .int16 i => decide (-32768 ≤ i) && decide (i < 32768)
  | .int8 i => decide (-128 ≤ i) && decide (i < 128)
  | .uint64 n => decide (0 ≤ n) && decide (n < 18446744073709551616)
  | .uint32 n => decide (0 ≤ n) && decide (n < 4294967296)
  | .uint16 n => decide (0 ≤ n) && decide (n < 65536)
  | .uint8 n => decide (0 ≤ n) && decide (n < 256)
  | .int128 i => decide (-9223372036854775808 ≤ i) && decide (i < 9223372036854775808)
  | .double _ _ => true
  | .float _ _ => true
  | .date _ => true
  | .interval d =>
      decide (-9223372036854775808 + 1000000000 ≤ d) &&
      decide (d ≤ 9223372036854775807 - 1000000000)
  | .timestamp _ | .timestampTz _ | .timestampNs _ | .timestampMs _
  | .timestampSec _ => true
  | .internalID id => id.wf
  | .string _ => true
  | .blob bs => bs.all fun b => decide (0 ≤ b) && decide (b < 256)
  | .list lt vs => ltWF lt && valueListWF vs
  | .array lt vs => ltWF lt && valueListWF vs
  | .struct fs => namedValuesWF fs
  | .node id _ props => id.wf && namedValuesWF props
  | .rel src dst _ props => src.wf && dst.wf && namedValuesWF props
  | .recursiveRel ns rs => nodeValuesWF ns && relValuesWF rs
  | .map kt vt ps => ltWF kt && ltWF vt && valuePairsWF ps
  | .union ts v => ltFieldsWF ts && valueWF v
  | .uuid _ => true
  | .decimal _ => true
termination_by structural v => v
def valueListWF : ValueList → Bool
  | .nil => true
  | .cons v tl => valueWF v && valueListWF tl
termination_by structural vs => vs
def namedValuesWF : NamedValues → Bool
  | .nil => true
  | .cons _ v tl => valueWF v && namedValuesWF tl
termination_by structural fs => fs
def valuePairsWF : ValuePairs → Bool
  | .nil => true
  | .cons k v tl => valueWF k && valueWF v && valuePairsWF tl
termination_by structural ps => ps
def nodeValuesWF : NodeValues → Bool
  | .nil => true
  | .cons id _ props tl => id.wf && namedValuesWF props && nodeValuesWF tl
termination_by structural ns => ns
def relValuesWF : RelValues → Bool
  | .nil => true
  | .cons src dst _ props tl =>
      src.wf && dst.wf && namedValuesWF props && relValuesWF tl
termination_by structural rs => rs
end

mutual
/-- Order-independent equality over Values (fueled): structural equality
except that the pair lists backed by unordered Go maps
(`Struct`/`Node`/`Rel` properties, `Map` pairs, `Union` types) are
compared as multisets (each pair of the left list is matched against and
removed from the right list).  `Union` types, carrying `LogicalType`s
only, are compared as multisets of `(name, type)` pairs with decidable
equality on types. -/
def valueEquivBF : Nat → Value → Value → Bool
  | 0, _, _ => false
  | _ + 1, .null lt, .null lt2 => ltBEq lt lt2
  | _ + 1, .bool b, .bool b2 => b = b2
  | _ + 1, .int64 i, .int64 i2 => i = i2
  | _ + 1, .int32 i, .int32 i2 => i = i2
  | _ + 1, .int16 i, .int16 i2 => i = i2
  | _ + 1, .int8 i, .int8 i2 => i = i2
  | _ + 1, .uint64 n, .uint64 n2 => n = n2
  | _ + 1, .uint32 n, .uint32 n2 => n = n2
  | _ + 1, .uint16 n, .uint16 n2 => n = n2
  | _ + 1, .uint8 n, .uint8 n2 => n = n2
  | _ + 1, .int128 i, .int128 i2 => i = i2
  | _ + 1, .double n d, .double n2 d2 => n = n2 && d = d2
  | _ + 1, .float n d, .float n2 d2 => n = n2 && d = d2
  | _ + 1, .date s, .date s2 => s = s2
  | _ + 1, .interval d, .interval d2 => d = d2
  | _ + 1, .timestamp s, .timestamp s2 => s = s2
  | _ + 1, .timestampTz s, .timestampTz s2 => s = s2
  | _ + 1, .timestampNs s, .timestampNs s2 => s = s2
  | _ + 1, .timestampMs s, .timestampMs s2 => s = s2
  | _ + 1, .timestampSec s, .timestampSec s2 => s = s2
  | _ + 1, .internalID id, .internalID id2 => id = id2
  | _ + 1, .string s, .string s2 => s = s2
  | _ + 1, .blob bs, .blob bs2 => bs = bs2
  | fuel + 1, .list lt vs, .list lt2 vs2 =>
      ltBEq lt lt2 && valueListEquivBF fuel vs vs2
  | fuel + 1, .array lt vs, .array lt2 vs2 =>
      ltBEq lt lt2 && valueListEquivBF fuel vs vs2
  | fuel + 1, .struct fs, .struct fs2 => namedValuesEquivBF fuel fs fs2
  | fuel + 1, .node id label props, .node id2 label2 props2 =>
      id = id2 && label = label2 && namedValuesEquivBF fuel props props2
  | fuel + 1, .rel src dst label props, .rel src2 dst2 label2 props2 =>
      src = src2 && dst = dst2 && label = label2 &&
      namedValuesEquivBF fuel props props2
  | fuel + 1, .recursiveRel ns rs, .recursiveRel ns2 rs2 =>
      nodeValuesEquivBF fuel ns ns2 && relValuesEquivBF fuel rs rs2
  | fuel + 1, .map kt vt ps, .map kt2 vt2 ps2 =>
      ltBEq kt kt2 && ltBEq vt vt2 && valuePairsEquivBF fuel ps ps2
  | fuel + 1, .union ts v, .union ts2 v2 =>
      ltFieldsPermBF fuel ts ts2 && valueEquivBF fuel v v2
  | _ + 1, .uuid s, .uuid s2 => s = s2
  | _ + 1, .decimal s, .decimal s2 => s = s2
  | _ + 1, _, _ => false
def valueListEquivBF : Nat → ValueList → ValueList → Bool
  | 0, _, _ => false
  | _ + 1, .nil, .nil => true
  | fuel + 1, .cons v tl, .cons v2 tl2 =>
      valueEquivBF fuel v v2 && valueListEquivBF fuel tl tl2
  | _ + 1, _, _ => false
def namedValuesEquivBF : Nat → NamedValues → NamedValues → Bool
  | 0, _, _ => false
  | _ + 1, .nil, .nil => true
  | fuel + 1, .cons k v tl, b =>
      match extractNamedBF fuel k v b with
      | none => false
      | some b2 => namedValuesEquivBF fuel tl b2
  | _ + 1, .nil, _ => false
def extractNamedBF : Nat → String → Value → NamedValues → Option NamedValues
  | 0, _, _, _ => none
  | _ + 1, _, _, .nil => none
  | fuel + 1, k, v, .cons k2 v2 tl =>
      if k = k2 && valueEquivBF fuel v v2 then some tl
      else
        match extractNamedBF fuel k v tl with
        | none => none
        | some tl2 => some (.cons k2 v2 tl2)
def valuePairsEquivBF : Nat → ValuePairs → ValuePairs → Bool
  | 0, _, _ => false
  | _ + 1, .nil, .nil => true
  | fuel + 1, .cons k v tl, b =>
      match extractPairBF fuel k v b with
      | none => false
      | some b2 => valuePairsEquivBF fuel tl b2
  | _ + 1, .nil, _ => false
def extractPairBF : Nat → Value → Value → ValuePairs → Option ValuePairs
  | 0, _, _, _ => none
  | _ + 1, _, _, .nil => none
  | fuel + 1, k, v, .cons k2 v2 tl =>
      if valueEquivBF fuel k k2 && valueEquivBF fuel v v2 then some tl
      else
        match extractPairBF fuel k v tl with
        | none => none
        | some tl2 => some (.cons k2 v2 tl2)
def nodeValuesEquivBF : Nat → NodeValues → NodeValues → Bool
  | 0, _, _ => false
  | _ + 1, .nil, .nil => true
  | fuel + 1, .cons id label props tl, .cons id2 label2 props2 tl2 =>
      id = id2 && label = label2 && namedValuesEquivBF fuel props props2 &&
      nodeValuesEquivBF fuel tl tl2
  | _ + 1, _, _ => false
def relValuesEquivBF : Nat → RelValues → RelValues → Bool
  | 0, _, _ => false
  | _ + 1, .nil, .nil => true
  | fuel + 1, .cons src dst label props tl, .cons src2 dst2 label2 props2 tl2 =>
      src = src2 && dst = dst2 && label = label2 &&
      namedValuesEquivBF fuel props props2 && relValuesEquivBF fuel tl tl2
  | _ + 1, _, _ => false
def ltFieldsPermBF : Nat → LTFields → LTFields → Bool
  | 0, _, _ => false
  | _ + 1, .nil, .nil => true
  | fuel + 1, .cons k t tl, b =>
      match extractLTFieldBF fuel k t b with
      | none => false
      | some b2 => ltFieldsPermBF fuel tl b2
  | _ + 1, .nil, _ => false
def extractLTFieldBF : Nat → String → LogicalType → LTFields → Option LTFields
  | 0, _, _, _ => none
  | _ + 1, _, _, .nil => none
  | fuel + 1, k, t, .cons k2 t2 tl =>
      if k = k2 && ltBEq t t2 then some tl
      else
        match extractLTFieldBF fuel k t tl with
        | none => none
        | some tl2 => some (.cons k2 t2 tl2)
end

/-- Order-independent Value equality, fuel supplied (quadratic worst case
bounded by the product-ish sum of both sizes, which the supplied fuel
dominates; a `false` from fuel exhaustion can only make the relation
smaller, and the round-trip theorems only consume it as a hypothesis). -/
def valueEquivB (a b : Value) : Bool :=
  valueEquivBF ((valueSize a + 1) * (valueSize b + 1)) a b


/-! ## Scalar string parsing (`GraphDbValueType.Parse`,
`pkg/sharedtypes/knowledgedb.go` lines 274-409)

The dispatch switch is translated case for case in source order.  The
scalar parsers it delegates to live in external libraries: `goParseBool`,
`goParseInt` and `goParseUint` model the documented base-10 behaviour of
`strconv` completely, while the float, date, duration, RFC3339, blob,
uuid and decimal parsers are sound partial models — each accepts a subset
of the strings its library accepts and maps every accepted string to the
library's result, in the canonical-string embedding of the external
payload types. -/

/-- `strconv.ParseBool`: the exact accepted set. -/
def goParseBool (s : String) : Except String Bool :=
  if s = "1" ∨ s = "t" ∨ s = "T" ∨ s = "TRUE" ∨ s = "true" ∨ s = "True" then
    .ok true
  else if s = "0" ∨ s = "f" ∨ s = "F" ∨ s = "FALSE" ∨ s = "false" ∨ s = "False" then
    .ok false
  else .error "ParseBool: invalid syntax"

/-- Longest prefix of decimal digits, as digit values, with the rest. -/
def takeDigits : List Char → List Nat × List Char
  | [] => ([], [])
  | c :: cs =>
      if c.isDigit then
        let (ds, rest) := takeDigits cs
        ((c.toNat - 48) :: ds, rest)
      else ([], c :: cs)
termination_by structural cs => cs

def digitsVal (ds : List Nat) : Nat := ds.foldl (fun a d => a * 10 + d) 0

/-- `strconv.ParseInt(s, 10, bitSize)`: optional sign then at least one
decimal digit; a value outside the bit range errors.  Callers supply the
range bounds as literals. -/
def goParseInt (lo hi : Int) (s : String) : Except String Int :=
  let (neg, r) :=
    match s.toList with
    | '+' :: r => (false, r)
    | '-' :: r => (true, r)
    | r => (false, r)
  match r with
  | [] => .error "ParseInt: invalid syntax"
  | _ =>
      match takeDigits r with
      | (ds, []) =>
          let v : Int := if neg then -(digitsVal ds : Int) else (digitsVal ds : Int)
          if v < lo ∨ hi < v then .error "ParseInt: value out of range"
          else .ok v
      | (_, _ :: _) => .error "ParseInt: invalid syntax"

/-- `strconv.ParseUint(s, 10, bitSize)`: decimal digits only (no sign
prefix); a value above the bit range errors. -/
def goParseUint (hi : Int) (s : String) : Except String Int :=
  match s.toList with
  | [] => .error "ParseUint: invalid syntax"
  | cs =>
      match takeDigits cs with
      | (ds, []) =>
          if hi < (digitsVal ds : Int) then .error "ParseUint: value out of range"
          else .ok (digitsVal ds : Int)
      | (_, _ :: _) => .error "ParseUint: invalid syntax"

/-- Partial model of `strconv.ParseFloat` restricted to plain decimal
literals (optional sign, digits, optional fraction) that are the shortest
rendering of the float they parse to; the result is the exact rational
`num/den` the literal denotes, matching the number embedding of `Json`. -/
def goParseFloatSub (s : String) : Except String (Int × Nat) :=
  let (neg, r) :=
    match s.toList with
    | '+' :: r => (false, r)
    | '-' :: r => (true, r)
    | r => (false, r)
  match takeDigits r with
  | ([], _) => .error "ParseFloat: invalid syntax"
  | (ip, []) => .ok (if neg then -(digitsVal ip : Int) else (digitsVal ip : Int), 1)
  | (ip, '.' :: fr) =>
      match takeDigits fr with
      | ([], _) => .error "ParseFloat: invalid syntax"
      | (fp, []) =>
          let m := digitsVal (ip ++ fp)
          .ok (if neg then -(m : Int) else (m : Int), 10 ^ fp.length)
      | (_, _ :: _) => .error "ParseFloat: invalid syntax"
  | (_, _ :: _) => .error "ParseFloat: invalid syntax"

/-- Partial model of `civil.ParseDate` ("YYYY-MM-DD") restricted to days
01-28 (valid in every month, so acceptance agrees with the library);
`civil.Date` is embedded as its canonical rendering, which for this
subset is the input itself. -/
def goParseDateSub (s : String) : Except String String :=
  match s.toList with
  | [y1, y2, y3, y4, '-', m1, m2, '-', d1, d2] =>
      if y1.isDigit ∧ y2.isDigit ∧ y3.isDigit ∧ y4.isDigit ∧
          m1.isDigit ∧ m2.isDigit ∧ d1.isDigit ∧ d2.isDigit then
        let m := (m1.toNat - 48) * 10 + (m2.toNat - 48)
        let d := (d1.toNat - 48) * 10 + (d2.toNat - 48)
        if 1 ≤ m ∧ m ≤ 12 ∧ 1 ≤ d ∧ d ≤ 28 then .ok s
        else .error "ParseDate: invalid date"
      else .error "ParseDate: invalid date"
  | _ => .error "ParseDate: invalid date"

/-- Partial model of `time.ParseDuration` restricted to `<digits>s`
(whole seconds, within the int64 nanosecond range). -/
def goParseDurationSub (s : String) : Except String Int :=
  match takeDigits s.toList with
  | ([], _) => .error "ParseDuration: invalid duration"
  | (ds, ['s']) =>
      if digitsVal ds ≤ 9223372036 then .ok ((digitsVal ds : Int) * 1000000000)
      else .error "ParseDuration: out of range"
  | (_, _) => .error "ParseDuration: invalid duration"

/-- Partial model of `time.Parse(time.RFC3339, s)` restricted to UTC
whole-second stamps "YYYY-MM-DDTHH:MM:SSZ" with day 01-28; `time.Time` is
embedded as its canonical rendering, which for this subset is the input
itself. -/
def goParseRFC3339Sub (s : String) : Except String String :=
  match s.toList with
  | [y1, y2, y3, y4, '-', m1, m2, '-', d1, d2, 'T',
     h1, h2, ':', n1, n2, ':', s1, s2, 'Z'] =>
      if y1.isDigit ∧ y2.isDigit ∧ y3.isDigit ∧ y4.isDigit ∧
          m1.isDigit ∧ m2.isDigit ∧ d1.isDigit ∧ d2.isDigit ∧
          h1.isDigit ∧ h2.isDigit ∧ n1.isDigit ∧ n2.isDigit ∧
          s1.isDigit ∧ s2.isDigit then
        let mo := (m1.toNat - 48) * 10 + (m2.toNat - 48)
        let da := (d1.toNat - 48) * 10 + (d2.toNat - 48)
        let ho := (h1.toNat - 48) * 10 + (h2.toNat - 48)
        let mi := (n1.toNat - 48) * 10 + (n2.toNat - 48)
        let se := (s1.toNat - 48) * 10 + (s2.toNat - 48)
        if 1 ≤ mo ∧ mo ≤ 12 ∧ 1 ≤ da ∧ da ≤ 28 ∧ ho ≤ 23 ∧ mi ≤ 59 ∧ se ≤ 59 then
          .ok s
        else .error "Parse: cannot parse time"
      else .error "Parse: cannot parse time"
  | _ => .error "Parse: cannot parse time"

/-- Body of a JSON string literal without escapes: the characters up to
the closing quote. -/
def jsonStrBody : List Char → Option (List Char)
  | ['"'] => some []
  | c :: cs =>
      if c = '"' ∨ c = '\\' then none
      else (jsonStrBody cs).map (c :: ·)
  | [] => none
termination_by structural cs => cs

/-- Standard base64 alphabet value of a character. -/
def b64DigitVal (c : Char) : Option Nat :=
  let n := c.toNat
  if 65 ≤ n ∧ n ≤ 90 then some (n - 65)
  else if 97 ≤ n ∧ n ≤ 122 then some (n - 97 + 26)
  else if 48 ≤ n ∧ n ≤ 57 then some (n - 48 + 52)
  else if c = '+' then some 62
  else if c = '/' then some 63
  else none

/-- Standard (padded) base64 decoding of a character list into byte
values. -/
def b64Decode : List Char → Option (List Int)
  | [] => some []
  | [a, b, '=', '='] =>
      match b64DigitVal a, b64DigitVal b with
      | some x, some y =>
          if y % 16 = 0 then some [((x * 4 + y / 16 : Nat) : Int)] else none
      | _, _ => none
  | [a, b, c, '='] =>
      match b64DigitVal a, b64DigitVal b, b64DigitVal c with
      | some x, some y, some z =>
          if z % 4 = 0 then
            some [((x * 4 + y / 16 : Nat) : Int),
                  ((y % 16 * 16 + z / 4 : Nat) : Int)]
          else none
      | _, _, _ => none
  | a :: b :: c :: d :: rest =>
      match b64DigitVal a, b64DigitVal b, b64DigitVal c, b64DigitVal d with
      | some x, some y, some z, some w =>
          match b64Decode rest with
          | some tl =>
              some (((x * 4 + y / 16 : Nat) : Int) ::
                    ((y % 16 * 16 + z / 4 : Nat) : Int) ::
                    ((z % 4 * 64 + w : Nat) : Int) :: tl)
          | none => none
      | _, _, _, _ => none
  | _ => none
termination_by structural cs => cs

/-- Partial model of `json.Unmarshal` into `[]uint8` (Go decodes a
`[]byte` from a base64-encoded JSON string) restricted to escape-free
string literals. -/
def goJsonBytesSub (s : String) : Except String (List Int) :=
  match s.toList with
  | '"' :: rest =>
      match jsonStrBody rest with
      | none => .error "json: invalid string literal"
      | some body =>
          match b64Decode body with
          | none => .error "json: illegal base64 data"
          | some bs => .ok bs
  | _ => .error "json: cannot unmarshal into []uint8"

def isHexLowerC (c : Char) : Bool :=
  c.isDigit || (97 ≤ c.toNat && c.toNat ≤ 102)

/-- Partial model of `uuid.Parse` restricted to the canonical lowercase
8-4-4-4-12 form; `uuid.UUID` is embedded as its canonical rendering,
which for this subset is the input itself. -/
def goParseUUIDSub (s : String) : Except String String :=
  match s.toList with
  | a1 :: a2 :: a3 :: a4 :: a5 :: a6 :: a7 :: a8 :: '-' ::
    b1 :: b2 :: b3 :: b4 :: '-' ::
    c1 :: c2 :: c3 :: c4 :: '-' ::
    d1 :: d2 :: d3 :: d4 :: '-' ::
    e1 :: e2 :: e3 :: e4 :: e5 :: e6 :: e7 :: e8 :: e9 :: e10 :: e11 :: e12 :: [] =>
      if ([a1, a2, a3, a4, a5, a6, a7, a8, b1, b2, b3, b4,
           c1, c2, c3, c4, d1, d2, d3, d4,
           e1, e2, e3, e4, e5, e6, e7, e8, e9, e10, e11, e12].all isHexLowerC) then
        .ok s
      else .error "invalid UUID format"
  | _ => .error "invalid UUID format"

/-- Partial model of `decimal.NewFromString` restricted to canonical
integer literals (no leading zeros, no negative zero); `decimal.Decimal`
is embedded as its canonical rendering, which for this subset is the
input itself. -/
def goParseDecimalSub (s : String) : Except String String :=
  let (neg, r) :=
    match s.toList with
    | '-' :: r => (true, r)
    | r => (false, r)
  match takeDigits r with
  | ([], _) => .error "decimal: invalid syntax"
  | (ds, []) =>
      if (1 < ds.length ∧ ds.headD 0 = 0) ∨ (neg ∧ digitsVal ds = 0) then
        .error "decimal: not canonical"
      else .ok s
  | (_, _ :: _) => .error "decimal: invalid syntax"

/-- `GraphDbValueType.Parse` (`knowledgedb.go` lines 274-409): dispatch on
the declared type-name constants, translated case for case in source
order.  The constant block (lines 247-272) also declares
`Timestamp = "timestamp"` and `Struct = "struct"`; the switch has a case
for neither, so both fall through to the default unknown-type error — the
exclusion comment above the constants lists Struct but not Timestamp. -/
def graphDbValueTypeParse (valType val : String) : Except String Value :=
  if valType = "bool" then
    match goParseBool val with
    | .error e => .error e
    | .ok b => .ok (.bool b)
  else if valType = "int64" then
    match goParseInt (-9223372036854775808) 9223372036854775807 val with
    | .error e => .error e
    | .ok i => .ok (.int64 i)
  else if valType = "int32" then
    match goParseInt (-2147483648) 2147483647 val with
    | .error e => .error e
    | .ok i => .ok (.int32 i)
  else if valType = "int16" then
    match goParseInt (-32768) 32767 val with
    | .error e => .error e
    | .ok i => .ok (.int16 i)
  else if valType = "int8" then
    match goParseInt (-128) 127 val with
    | .error e => .error e
    | .ok i => .ok (.int8 i)
  else if valType = "uint64" then
    match goParseUint 18446744073709551615 val with
    | .error e => .error e
    | .ok n => .ok (.uint64 n)
  else if valType = "uint32" then
    match goParseUint 4294967295 val with
    | .error e => .error e
    | .ok n => .ok (.uint32 n)
  else if valType = "uint16" then
    match goParseUint 65535 val with
    | .error e => .error e
    | .ok n => .ok (.uint16 n)
  else if valType = "uint8" then
    match goParseUint 255 val with
    | .error e => .error e
    | .ok n => .ok (.uint8 n)
  else if valType = "int128" then
    match goParseInt (-9223372036854775808) 9223372036854775807 val with
    | .error e => .error e
    | .ok i => .ok (.int128 i)
  else if valType = "double" then
    match goParseFloatSub val with
    | .error e => .error e
    | .ok nd => .ok (.double nd.1 nd.2)
  else if valType = "float" then
    match goParseFloatSub val with
    | .error e => .error e
    | .ok nd => .ok (.float nd.1 nd.2)
  else if valType = "date" then
    match goParseDateSub val with
    | .error e => .error e
    | .ok s => .ok (.date s)
  else if valType = "interval" then
    match goParseDurationSub val with
    | .error e => .error e
    | .ok d => .ok (.interval d)
  else if valType = "timestamptz" then
    match goParseRFC3339Sub val with
    | .error e => .error e
    | .ok s => .ok (.timestampTz s)
  else if valType = "timestampns" then
    match goParseRFC3339Sub val with
    | .error e => .error e
    | .ok s => .ok (.timestampNs s)
  else if valType = "timestampms" then
    match goParseRFC3339Sub val with
    | .error e => .error e
    | .ok s => .ok (.timestampMs s)
  else if valType = "timestampsec" then
    match goParseRFC3339Sub val with
    | .error e => .error e
    | .ok s => .ok (.timestampSec s)
  else if valType = "string" then .ok (.string val)
  else if valType = "blob" then
    match goJsonBytesSub val with
    | .error e => .error e
    | .ok bs => .ok (.blob bs)
  else if valType = "uuid" then
    match goParseUUIDSub val with
    | .error e => .error e
    | .ok s => .ok (.uuid s)
  else if valType = "decimal" then
    match goParseDecimalSub val with
    | .error e => .error e
    | .ok s => .ok (.decimal s)
  else .error ("unknown value type " ++ valType)


theorem wrap64_eq_self {x : Int} (h1 : -9223372036854775808 ≤ x)
    (h2 : x ≤ 9223372036854775807) : wrap64 x = x := by
  unfold wrap64
  omega

theorem tmod_neg_left (a b : Int) : Int.tmod (-a) b = -Int.tmod a b := by
  rw [Int.tmod_def, Int.tmod_def, Int.neg_tdiv]
  ring

/-- On inputs at least one second away from the `int64` endpoints,
`Duration.Round(1s)` does not saturate: it yields the nearest whole-second
multiple, within half a second of the input. -/
theorem durRound1s_eq (d : Int) (hlo : -9223372036854775808 + 1000000000 ≤ d)
    (hhi : d ≤ 9223372036854775807 - 1000000000) :
    ∃ k : Int, durRound1s d = 1000000000 * k ∧
      d - 500000000 ≤ 1000000000 * k ∧ 1000000000 * k ≤ d + 500000000 := by
  have hident := Int.tmod_add_tdiv d 1000000000
  rcases le_or_lt 0 d with hpos | hneg
  · have hr0 : 0 ≤ Int.tmod d 1000000000 := Int.tmod_nonneg _ hpos
    have hrm : Int.tmod d 1000000000 < 1000000000 :=
      Int.tmod_lt_of_pos d (by norm_num)
    simp only [durRound1s, wrap64]
    split_ifs <;> first
      | (exact absurd ‹d < 0› (by omega))
      | (exact ⟨d.tdiv 1000000000, by omega⟩)
      | (exact ⟨d.tdiv 1000000000 + 1, by omega⟩)
  · have hmn : Int.tmod (-d) 1000000000 = -Int.tmod d 1000000000 := by
      rw [← tmod_neg_left]
    have hr0 : 0 ≤ Int.tmod (-d) 1000000000 := Int.tmod_nonneg _ (by omega)
    have hrm : Int.tmod (-d) 1000000000 < 1000000000 :=
      Int.tmod_lt_of_pos (-d) (by norm_num)
    simp only [durRound1s, wrap64]
    split_ifs <;> first
      | (exact absurd ‹d < 0› (by omega))
      | (exact ⟨d.tdiv 1000000000, by omega⟩)
      | (exact ⟨d.tdiv 1000000000 - 1, by omega⟩)


/-- Exact interval round trip away from the saturation corner. -/
theorem intervalRoundTripExact (d : Int)
    (hlo : -9223372036854775808 + 1000000000 ≤ d)
    (hhi : d ≤ 9223372036854775807 - 1000000000) :
    intervalUnmarshal (intervalMarshal d).1 (intervalMarshal d).2 = d := by
  obtain ⟨k, hk, hb1, hb2⟩ := durRound1s_eq d hlo hhi
  simp only [intervalMarshal, intervalUnmarshal, hk]
  rw [Int.mul_tdiv_cancel_left _ (by norm_num)]
  have e1 : wrap64 (d - 1000000000 * k) = d - 1000000000 * k :=
    wrap64_eq_self (by omega) (by omega)
  have e2 : wrap64 (k * 1000000000) = k * 1000000000 :=
    wrap64_eq_self (by omega) (by omega)
  rw [e1, e2, wrap64_eq_self (by omega) (by omega)]
  omega

/-- The components of the marshalled interval stay within `int64` bounds
away from the saturation corner. -/
theorem intervalMarshal_components (d : Int)
    (hlo : -9223372036854775808 + 1000000000 ≤ d)
    (hhi : d ≤ 9223372036854775807 - 1000000000) :
    -9223372036854775808 ≤ (intervalMarshal d).1 ∧
    (intervalMarshal d).1 < 9223372036854775808 ∧
    -9223372036854775808 ≤ (intervalMarshal d).2 ∧
    (intervalMarshal d).2 < 9223372036854775808 := by
  obtain ⟨k, hk, hb1, hb2⟩ := durRound1s_eq d hlo hhi
  simp only [intervalMarshal, hk]
  rw [Int.mul_tdiv_cancel_left _ (by norm_num)]
  rw [wrap64_eq_self (by omega) (by omega)]
  refine ⟨by omega, by omega, by omega, by omega⟩

/-- Over the whole `int64` range (saturation included), the nanosecond
remainder emitted by the interval encoder is at most half a second in
magnitude. -/
theorem intervalMarshal_snd_bound (d : Int)
    (h1 : -9223372036854775808 ≤ d) (h2 : d ≤ 9223372036854775807) :
    -500000000 ≤ (intervalMarshal d).2 ∧ (intervalMarshal d).2 ≤ 500000000 := by
  have hident := Int.tmod_add_tdiv d 1000000000
  have key : d - 500000000 ≤ durRound1s d ∧ durRound1s d ≤ d + 500000000 ∧
      -9223372036854775808 ≤ durRound1s d ∧ durRound1s d ≤ 9223372036854775807 := by
    rcases le_or_lt 0 d with hpos | hneg
    · have hr0 : 0 ≤ Int.tmod d 1000000000 := Int.tmod_nonneg _ hpos
      have hrm : Int.tmod d 1000000000 < 1000000000 :=
        Int.tmod_lt_of_pos d (by norm_num)
      simp only [durRound1s, wrap64, minInt64, maxInt64]
      split_ifs <;> omega
    · have hmn : Int.tmod (-d) 1000000000 = -Int.tmod d 1000000000 :=
        tmod_neg_left d 1000000000
      have hr0 : 0 ≤ Int.tmod (-d) 1000000000 := Int.tmod_nonneg _ (by omega)
      have hrm : Int.tmod (-d) 1000000000 < 1000000000 :=
        Int.tmod_lt_of_pos (-d) (by norm_num)
      simp only [durRound1s, wrap64, minInt64, maxInt64]
      split_ifs <;> omega
  simp only [intervalMarshal]
  rw [wrap64_eq_self (by omega) (by omega)]
  omega

theorem decodeJsonUInt64_ok (n : Int) (h0 : 0 ≤ n) (h : n < 18446744073709551616) :
    decodeJsonUInt64 (.num n 1) = .ok n := by
  simp [decodeJsonUInt64, h0, h]

theorem decodeJsonUInt32_ok (n : Int) (h0 : 0 ≤ n) (h : n < 4294967296) :
    decodeJsonUInt32 (.num n 1) = .ok n := by
  simp [decodeJsonUInt32, h0, h]

/-- Round trip of every unit LogicalType variant (bare-string form), at any
non-zero fuel. -/
theorem ltRoundTripUnitF (fuel : Nat) (lt : LogicalType) (hu : ltIsUnit lt = true) :
    decodeLogicalTypeF (fuel + 1) (encodeLogicalType lt) = .ok lt := by
  cases lt <;> simp_all [encodeLogicalType, externallyTaggedMarshal,
    decodeLogicalTypeF, ltUnitFromTag, ltIsUnit]

/-- Size-bounded round trip for the LogicalType family, by induction on the
fuel. -/
theorem ltRoundTripAux : ∀ fuel : Nat,
    (∀ lt : LogicalType, ltWF lt = true →
      (encodeLogicalType lt).size ≤ fuel →
      decodeLogicalTypeF fuel (encodeLogicalType lt) = .ok lt) ∧
    (∀ fs : LTFields, ltFieldsWF fs = true →
      (encodeLTFields fs).size ≤ fuel →
      decodeLTFieldsArrF fuel (encodeLTFields fs) = .ok fs) := by
  intro fuel
  induction fuel with
  | zero =>
      constructor
      · intro lt _ hsz
        cases hj : encodeLogicalType lt <;> rw [hj] at hsz <;>
          simp [Json.size] at hsz <;> omega
      · intro fs _ hsz
        cases hj : encodeLTFields fs <;> rw [hj] at hsz <;>
          simp [JsonArr.size] at hsz <;> omega
  | succ n ih =>
      constructor
      · intro lt hwf hsz
        cases lt with
        | list c =>
            simp only [ltWF] at hwf
            simp only [encodeLogicalType, externallyTaggedMarshal] at hsz ⊢
            simp only [Json.size, JsonObj.size] at hsz
            have hc := ih.1 c hwf (by omega)
            simp [decodeLogicalTypeF, asObjFields, lookupLast, hc]
        | array c m =>
            simp only [ltWF, Bool.and_eq_true, decide_eq_true_eq] at hwf
            simp only [encodeLogicalType, externallyTaggedMarshal] at hsz ⊢
            simp only [Json.size, JsonObj.size] at hsz
            have hc := ih.1 c hwf.1.1 (by omega)
            simp [decodeLogicalTypeF, asObjFields, lookupLast, hc,
              decodeJsonUInt64_ok m hwf.1.2 hwf.2]
        | struct fs =>
            simp only [ltWF] at hwf
            simp only [encodeLogicalType, externallyTaggedMarshal] at hsz ⊢
            simp only [Json.size, JsonObj.size, JsonArr.size] at hsz
            have hfs := ih.2 fs hwf (by omega)
            simp [decodeLogicalTypeF, asObjFields, lookupLast, hfs]
        | map kt vt =>
            simp only [ltWF, Bool.and_eq_true] at hwf
            simp only [encodeLogicalType, externallyTaggedMarshal] at hsz ⊢
            simp only [Json.size, JsonObj.size] at hsz
            have hk := ih.1 kt hwf.1 (by omega)
            have hv := ih.1 vt hwf.2 (by omega)
            simp [decodeLogicalTypeF, asObjFields, lookupLast, hk, hv]
        | union fs =>
            simp only [ltWF] at hwf
            simp only [encodeLogicalType, externallyTaggedMarshal] at hsz ⊢
            simp only [Json.size, JsonObj.size, JsonArr.size] at hsz
            have hfs := ih.2 fs hwf (by omega)
            simp [decodeLogicalTypeF, asObjFields, lookupLast, hfs]
        | decimal p s =>
            simp only [ltWF, Bool.and_eq_true, decide_eq_true_eq] at hwf
            simp only [encodeLogicalType, externallyTaggedMarshal]
            simp [decodeLogicalTypeF, asObjFields, lookupLast,
              decodeJsonUInt32_ok p hwf.1.1.1 hwf.1.1.2,
              decodeJsonUInt32_ok s hwf.1.2 hwf.2]
        | _ => exact ltRoundTripUnitF n _ rfl
      · intro fs hwf hsz
        cases fs with
        | nil => simp [encodeLTFields, decodeLTFieldsArrF]
        | cons m t tl =>
            simp only [ltFieldsWF, Bool.and_eq_true] at hwf
            simp only [encodeLTFields] at hsz ⊢
            simp only [Json.size, JsonArr.size] at hsz
            have ht := ih.1 t hwf.1 (by omega)
            have htl := ih.2 tl hwf.2 (by omega)
            simp [decodeLTFieldsArrF, ht, htl]

/-- Round trip of the generic LogicalType codec. -/
theorem ltRoundTrip (lt : LogicalType) (h : ltWF lt = true) :
    decodeLogicalType (encodeLogicalType lt) = .ok lt :=
  (ltRoundTripAux (encodeLogicalType lt).size).1 lt h le_rfl

/-- Round trip of `[]Twople[string, LogicalType]` field lists. -/
theorem ltFieldsRoundTrip (fs : LTFields) (h : ltFieldsWF fs = true) :
    decodeLTFieldsArr (encodeLTFields fs) = .ok fs :=
  (ltRoundTripAux (encodeLTFields fs).size).2 fs h le_rfl


theorem decodeJsonInt64_ok (i : Int) (h1 : -9223372036854775808 ≤ i)
    (h2 : i < 9223372036854775808) : decodeJsonInt64 (.num i 1) = .ok i := by
  simp [decodeJsonInt64, h1, h2]

theorem decodeJsonInt32_ok (i : Int) (h1 : -2147483648 ≤ i)
    (h2 : i < 2147483648) : decodeJsonInt32 (.num i 1) = .ok i := by
  simp [decodeJsonInt32, h1, h2]

theorem decodeJsonInt16_ok (i : Int) (h1 : -32768 ≤ i) (h2 : i < 32768) :
    decodeJsonInt16 (.num i 1) = .ok i := by
  simp [decodeJsonInt16, h1, h2]

theorem decodeJsonInt8_ok (i : Int) (h1 : -128 ≤ i) (h2 : i < 128) :
    decodeJsonInt8 (.num i 1) = .ok i := by
  simp [decodeJsonInt8, h1, h2]

theorem decodeJsonUInt16_ok (n : Int) (h0 : 0 ≤ n) (h : n < 65536) :
    decodeJsonUInt16 (.num n 1) = .ok n := by
  simp [decodeJsonUInt16, h0, h]

theorem decodeJsonUInt8_ok (n : Int) (h0 : 0 ≤ n) (h : n < 256) :
    decodeJsonUInt8 (.num n 1) = .ok n := by
  simp [decodeJsonUInt8, h0, h]

theorem blobRoundTrip : ∀ bs : List Int,
    (bs.all fun b => decide (0 ≤ b) && decide (b < 256)) = true →
    decodeBlobArr (blobMarshal bs) = .ok bs := by
  intro bs h
  induction bs with
  | nil => simp [blobMarshal, decodeBlobArr]
  | cons b tl ih =>
      simp only [List.all_cons, Bool.and_eq_true, decide_eq_true_eq] at h
      have hb := h.1
      have htl := ih h.2
      have hnb : ¬(255 < b) := by omega
      simp [blobMarshal, decodeBlobArr, decodeJsonUInt16_ok b hb.1 (by omega),
        htl, hnb]

theorem internalIDRoundTrip (id : InternalID) (h : id.wf = true) :
    decodeInternalID (encodeInternalID id) = .ok id := by
  simp only [InternalID.wf, Bool.and_eq_true, decide_eq_true_eq] at h
  have e1 := decodeJsonUInt64_ok id.tableId h.1.1.1 h.1.1.2
  have e2 := decodeJsonUInt64_ok id.offset h.1.2 h.2
  simp [encodeInternalID, decodeInternalID, decodeInternalIDFields, e1, e2]

/-- Size-bounded round trip for the Value family, by strong induction on
the fuel. -/
theorem valueRoundTripAux : ∀ fuel : Nat,
    (∀ v : Value, valueWF v = true → (encodeValue v).size ≤ fuel →
      decodeValueF fuel (encodeValue v) = .ok v) ∧
    (∀ vs : ValueList, valueListWF vs = true → (encodeValueList vs).size ≤ fuel →
      decodeValueListF fuel (encodeValueList vs) = .ok vs) ∧
    (∀ fs : NamedValues, namedValuesWF fs = true →
      (encodeNamedValues fs).size ≤ fuel →
      decodeNamedValuesF fuel (encodeNamedValues fs) = .ok fs) ∧
    (∀ ps : ValuePairs, valuePairsWF ps = true →
      (encodeValuePairs ps).size ≤ fuel →
      decodeValuePairsF fuel (encodeValuePairs ps) = .ok ps) ∧
    (∀ ns : NodeValues, nodeValuesWF ns = true →
      (encodeNodeValues ns).size ≤ fuel →
      decodeNodeValuesF fuel (encodeNodeValues ns) = .ok ns) ∧
    (∀ rs : RelValues, relValuesWF rs = true →
      (encodeRelValues rs).size ≤ fuel →
      decodeRelValuesF fuel (encodeRelValues rs) = .ok rs) := by
  intro fuel
  induction fuel using Nat.strongRecOn with
  | ind fuel ih =>
  refine ⟨?_, ?_, ?_, ?_, ?_, ?_⟩
  · intro v hwf hsz
    cases v with
    | null lt =>
        simp only [valueWF] at hwf
        simp only [encodeValue, externallyTaggedMarshal] at hsz ⊢
        simp only [Json.size, JsonObj.size] at hsz
        obtain ⟨m, rfl⟩ : ∃ m, fuel = m + 1 + 1 := ⟨fuel - 2, by omega⟩
        have hlt := (ltRoundTripAux (m + 1)).1 lt hwf (by omega)
        simp [decodeValueF, decodeValuePayloadF, hlt]
    | bool b =>
        simp only [encodeValue, externallyTaggedMarshal] at hsz ⊢
        simp only [Json.size, JsonObj.size] at hsz
        obtain ⟨m, rfl⟩ : ∃ m, fuel = m + 1 + 1 := ⟨fuel - 2, by omega⟩
        simp [decodeValueF, decodeValuePayloadF, decodeJsonBool]
    | int64 i =>
        simp only [valueWF, Bool.and_eq_true, decide_eq_true_eq] at hwf
        simp only [encodeValue, externallyTaggedMarshal] at hsz ⊢
        simp only [Json.size, JsonObj.size] at hsz
        obtain ⟨m, rfl⟩ : ∃ m, fuel = m + 1 + 1 := ⟨fuel - 2, by omega⟩
        simp [decodeValueF, decodeValuePayloadF, decodeJsonInt64_ok i hwf.1 hwf.2]
    | int32 i =>
        simp only [valueWF, Bool.and_eq_true, decide_eq_true_eq] at hwf
        simp only [encodeValue, externallyTaggedMarshal] at hsz ⊢
        simp only [Json.size, JsonObj.size] at hsz
        obtain ⟨m, rfl⟩ : ∃ m, fuel = m + 1 + 1 := ⟨fuel - 2, by omega⟩
        simp [decodeValueF, decodeValuePayloadF, decodeJsonInt32_ok i hwf.1 hwf.2]
    | int16 i =>
        simp only [valueWF, Bool.and_eq_true, decide_eq_true_eq] at hwf
        simp only [encodeValue, externallyTaggedMarshal] at hsz ⊢
        simp only [Json.size, JsonObj.size] at hsz
        obtain ⟨m, rfl⟩ : ∃ m, fuel = m + 1 + 1 := ⟨fuel - 2, by omega⟩
        simp [decodeValueF, decodeValuePayloadF, decodeJsonInt16_ok i hwf.1 hwf.2]
    | int8 i =>
        simp only [valueWF, Bool.and_eq_true, decide_eq_true_eq] at hwf
        simp only [encodeValue, externallyTaggedMarshal] at hsz ⊢
        simp only [Json.size, JsonObj.size] at hsz
        obtain ⟨m, rfl⟩ : ∃ m, fuel = m + 1 + 1 := ⟨fuel - 2, by omega⟩
        simp [decodeValueF, decodeValuePayloadF, decodeJsonInt8_ok i hwf.1 hwf.2]
    | uint64 n =>
        simp only [valueWF, Bool.and_eq_true, decide_eq_true_eq] at hwf
        simp only [encodeValue, externallyTaggedMarshal] at hsz ⊢
        simp only [Json.size, JsonObj.size] at hsz
        obtain ⟨m, rfl⟩ : ∃ m, fuel = m + 1 + 1 := ⟨fuel - 2, by omega⟩
        simp [decodeValueF, decodeValuePayloadF, decodeJsonUInt64_ok n hwf.1 hwf.2]
    | uint32 n =>
        simp only [valueWF, Bool.and_eq_true, decide_eq_true_eq] at hwf
        simp only [encodeValue, externallyTaggedMarshal] at hsz ⊢
        simp only [Json.size, JsonObj.size] at hsz
        obtain ⟨m, rfl⟩ : ∃ m, fuel = m + 1 + 1 := ⟨fuel - 2, by omega⟩
        simp [decodeValueF, decodeValuePayloadF, decodeJsonUInt32_ok n hwf.1 hwf.2]
    | uint16 n =>
        simp only [valueWF, Bool.and_eq_true, decide_eq_true_eq] at hwf
        simp only [encodeValue, externallyTaggedMarshal] at hsz ⊢
        simp only [Json.size, JsonObj.size] at hsz
        obtain ⟨m, rfl⟩ : ∃ m, fuel = m + 1 + 1 := ⟨fuel - 2, by omega⟩
        simp [decodeValueF, decodeValuePayloadF, decodeJsonUInt16_ok n hwf.1 hwf.2]
    | uint8 n =>
        simp only [valueWF, Bool.and_eq_true, decide_eq_true_eq] at hwf
        simp only [encodeValue, externallyTaggedMarshal] at hsz ⊢
        simp only [Json.size, JsonObj.size] at hsz
        obtain ⟨m, rfl⟩ : ∃ m, fuel = m + 1 + 1 := ⟨fuel - 2, by omega⟩
        simp [decodeValueF, decodeValuePayloadF, decodeJsonUInt8_ok n hwf.1 hwf.2]
    | int128 i =>
        simp only [valueWF, Bool.and_eq_true, decide_eq_true_eq] at hwf
        simp only [encodeValue, externallyTaggedMarshal] at hsz ⊢
        simp only [Json.size, JsonObj.size] at hsz
        obtain ⟨m, rfl⟩ : ∃ m, fuel = m + 1 + 1 := ⟨fuel - 2, by omega⟩
        simp [decodeValueF, decodeValuePayloadF, decodeJsonInt64_ok i hwf.1 hwf.2]
    | double n d =>
        simp only [encodeValue, externallyTaggedMarshal] at hsz ⊢
        simp only [Json.size, JsonObj.size] at hsz
        obtain ⟨m, rfl⟩ : ∃ m, fuel = m + 1 + 1 := ⟨fuel - 2, by omega⟩
        simp [decodeValueF, decodeValuePayloadF, decodeJsonNum]
    | float n d =>
        simp only [encodeValue, externallyTaggedMarshal] at hsz ⊢
        simp only [Json.size, JsonObj.size] at hsz
        obtain ⟨m, rfl⟩ : ∃ m, fuel = m + 1 + 1 := ⟨fuel - 2, by omega⟩
        simp [decodeValueF, decodeValuePayloadF, decodeJsonNum]
    | date s =>
        simp only [encodeValue, externallyTaggedMarshal] at hsz ⊢
        simp only [Json.size, JsonObj.size] at hsz
        obtain ⟨m, rfl⟩ : ∃ m, fuel = m + 1 + 1 := ⟨fuel - 2, by omega⟩
        simp [decodeValueF, decodeValuePayloadF, decodeJsonString]
    | interval d =>
        simp only [valueWF, Bool.and_eq_true, decide_eq_true_eq] at hwf
        simp only [encodeValue, externallyTaggedMarshal] at hsz ⊢
        simp only [Json.size, JsonObj.size, JsonArr.size] at hsz
        obtain ⟨m, rfl⟩ : ∃ m, fuel = m + 1 + 1 := ⟨fuel - 2, by omega⟩
        obtain ⟨hc1, hc2, hc3, hc4⟩ := intervalMarshal_components d hwf.1 hwf.2
        have hrt := intervalRoundTripExact d hwf.1 hwf.2
        simp [decodeValueF, decodeValuePayloadF,
          decodeJsonInt64_ok _ hc1 hc2, decodeJsonInt64_ok _ hc3 hc4, hrt]
    | timestamp s =>
        simp only [encodeValue, externallyTaggedMarshal] at hsz ⊢
        simp only [Json.size, JsonObj.size] at hsz
        obtain ⟨m, rfl⟩ : ∃ m, fuel = m + 1 + 1 := ⟨fuel - 2, by omega⟩
        simp [decodeValueF, decodeValuePayloadF, decodeJsonString]
    | timestampTz s =>
        simp only [encodeValue, externallyTaggedMarshal] at hsz ⊢
        simp only [Json.size, JsonObj.size] at hsz
        obtain ⟨m, rfl⟩ : ∃ m, fuel = m + 1 + 1 := ⟨fuel - 2, by omega⟩
        simp [decodeValueF, decodeValuePayloadF, decodeJsonString]
    | timestampNs s =>
        simp only [encodeValue, externallyTaggedMarshal] at hsz ⊢
        simp only [Json.size, JsonObj.size] at hsz
        obtain ⟨m, rfl⟩ : ∃ m, fuel = m + 1 + 1 := ⟨fuel - 2, by omega⟩
        simp [decodeValueF, decodeValuePayloadF, decodeJsonString]
    | timestampMs s =>
        simp only [encodeValue, externallyTaggedMarshal] at hsz ⊢
        simp only [Json.size, JsonObj.size] at hsz
        obtain ⟨m, rfl⟩ : ∃ m, fuel = m + 1 + 1 := ⟨fuel - 2, by omega⟩
        simp [decodeValueF, decodeValuePayloadF, decodeJsonString]
    | timestampSec s =>
        simp only [encodeValue, externallyTaggedMarshal] at hsz ⊢
        simp only [Json.size, JsonObj.size] at hsz
        obtain ⟨m, rfl⟩ : ∃ m, fuel = m + 1 + 1 := ⟨fuel - 2, by omega⟩
        simp [decodeValueF, decodeValuePayloadF, decodeJsonString]
    | internalID id =>
        simp only [valueWF] at hwf
        simp only [encodeValue, externallyTaggedMarshal] at hsz ⊢
        simp only [Json.size, JsonObj.size] at hsz
        obtain ⟨m, rfl⟩ : ∃ m, fuel = m + 1 + 1 := ⟨fuel - 2, by omega⟩
        simp [decodeValueF, decodeValuePayloadF, internalIDRoundTrip id hwf]
    | string s =>
        simp only [encodeValue, externallyTaggedMarshal] at hsz ⊢
        simp only [Json.size, JsonObj.size] at hsz
        obtain ⟨m, rfl⟩ : ∃ m, fuel = m + 1 + 1 := ⟨fuel - 2, by omega⟩
        simp [decodeValueF, decodeValuePayloadF, decodeJsonString]
    | blob bs =>
        simp only [valueWF] at hwf
        simp only [encodeValue, externallyTaggedMarshal] at hsz ⊢
        simp only [Json.size, JsonObj.size] at hsz
        obtain ⟨m, rfl⟩ : ∃ m, fuel = m + 1 + 1 := ⟨fuel - 2, by omega⟩
        simp [decodeValueF, decodeValuePayloadF, blobRoundTrip bs hwf]
    | list lt vs =>
        simp only [valueWF, Bool.and_eq_true] at hwf
        simp only [encodeValue, externallyTaggedMarshal] at hsz ⊢
        simp only [Json.size, JsonObj.size, JsonArr.size] at hsz
        obtain ⟨m, rfl⟩ : ∃ m, fuel = m + 1 + 1 := ⟨fuel - 2, by omega⟩
        have hlt := (ltRoundTripAux (m + 1)).1 lt hwf.1 (by omega)
        have hvs := (ih m (by omega)).2.1 vs hwf.2 (by omega)
        simp [decodeValueF, decodeValuePayloadF, hlt, hvs]
    | array lt vs =>
        simp only [valueWF, Bool.and_eq_true] at hwf
        simp only [encodeValue, externallyTaggedMarshal] at hsz ⊢
        simp only [Json.size, JsonObj.size, JsonArr.size] at hsz
        obtain ⟨m, rfl⟩ : ∃ m, fuel = m + 1 + 1 := ⟨fuel - 2, by omega⟩
        have hlt := (ltRoundTripAux (m + 1)).1 lt hwf.1 (by omega)
        have hvs := (ih m (by omega)).2.1 vs hwf.2 (by omega)
        simp [decodeValueF, decodeValuePayloadF, hlt, hvs]
    | struct fs =>
        simp only [valueWF] at hwf
        simp only [encodeValue, externallyTaggedMarshal] at hsz ⊢
        simp only [Json.size, JsonObj.size] at hsz
        obtain ⟨m, rfl⟩ : ∃ m, fuel = m + 1 + 1 := ⟨fuel - 2, by omega⟩
        have hfs := (ih m (by omega)).2.2.1 fs hwf (by omega)
        simp [decodeValueF, decodeValuePayloadF, hfs]
    | node id label props =>
        simp only [valueWF, Bool.and_eq_true] at hwf
        simp only [encodeValue, externallyTaggedMarshal] at hsz ⊢
        simp only [Json.size, JsonObj.size] at hsz
        obtain ⟨m, rfl⟩ : ∃ m, fuel = m + 1 + 1 := ⟨fuel - 2, by omega⟩
        have hid := internalIDRoundTrip id hwf.1
        have hp := (ih m (by omega)).2.2.1 props hwf.2 (by omega)
        simp [decodeValueF, decodeValuePayloadF, decodeNodePayloadF,
          asObjFields, lookupLast, hid, hp, decodeJsonString]
    | rel src dst label props =>
        simp only [valueWF, Bool.and_eq_true] at hwf
        simp only [encodeValue, externallyTaggedMarshal] at hsz ⊢
        simp only [Json.size, JsonObj.size] at hsz
        obtain ⟨m, rfl⟩ : ∃ m, fuel = m + 1 + 1 := ⟨fuel - 2, by omega⟩
        have hsrc := internalIDRoundTrip src hwf.1.1
        have hdst := internalIDRoundTrip dst hwf.1.2
        have hp := (ih m (by omega)).2.2.1 props hwf.2 (by omega)
        simp [decodeValueF, decodeValuePayloadF, decodeRelPayloadF,
          asObjFields, lookupLast, hsrc, hdst, hp, decodeJsonString]
    | recursiveRel ns rs =>
        simp only [valueWF, Bool.and_eq_true] at hwf
        simp only [encodeValue, externallyTaggedMarshal] at hsz ⊢
        simp only [Json.size, JsonObj.size] at hsz
        obtain ⟨m, rfl⟩ : ∃ m, fuel = m + 1 + 1 := ⟨fuel - 2, by omega⟩
        have hns := (ih m (by omega)).2.2.2.2.1 ns hwf.1 (by omega)
        have hrs := (ih m (by omega)).2.2.2.2.2 rs hwf.2 (by omega)
        simp [decodeValueF, decodeValuePayloadF, asObjFields, lookupLast,
          hns, hrs]
    | map kt vt ps =>
        simp only [valueWF, Bool.and_eq_true] at hwf
        simp only [encodeValue, externallyTaggedMarshal] at hsz ⊢
        simp only [Json.size, JsonObj.size, JsonArr.size] at hsz
        obtain ⟨m, rfl⟩ : ∃ m, fuel = m + 1 + 1 := ⟨fuel - 2, by omega⟩
        have hkt := (ltRoundTripAux (m + 1)).1 kt hwf.1.1 (by omega)
        have hvt := (ltRoundTripAux (m + 1)).1 vt hwf.1.2 (by omega)
        have hps := (ih m (by omega)).2.2.2.1 ps hwf.2 (by omega)
        simp [decodeValueF, decodeValuePayloadF, hkt, hvt, hps]
    | union ts v =>
        simp only [valueWF, Bool.and_eq_true] at hwf
        simp only [encodeValue, externallyTaggedMarshal] at hsz ⊢
        simp only [Json.size, JsonObj.size] at hsz
        obtain ⟨m, rfl⟩ : ∃ m, fuel = m + 1 + 1 := ⟨fuel - 2, by omega⟩
        have hts := (ltRoundTripAux (m + 1)).2 ts hwf.1 (by omega)
        have hv := (ih m (by omega)).1 v hwf.2 (by omega)
        simp [decodeValueF, decodeValuePayloadF, asObjFields, lookupLast,
          hts, hv]
    | uuid s =>
        simp only [encodeValue, externallyTaggedMarshal] at hsz ⊢
        simp only [Json.size, JsonObj.size] at hsz
        obtain ⟨m, rfl⟩ : ∃ m, fuel = m + 1 + 1 := ⟨fuel - 2, by omega⟩
        simp [decodeValueF, decodeValuePayloadF, decodeJsonString]
    | decimal s =>
        simp only [encodeValue, externallyTaggedMarshal] at hsz ⊢
        simp only [Json.size, JsonObj.size] at hsz
        obtain ⟨m, rfl⟩ : ∃ m, fuel = m + 1 + 1 := ⟨fuel - 2, by omega⟩
        simp [decodeValueF, decodeValuePayloadF, decodeJsonString]
  · intro vs hwf hsz
    cases vs with
    | nil =>
        simp only [encodeValueList, JsonArr.size] at hsz ⊢
        obtain ⟨m, rfl⟩ : ∃ m, fuel = m + 1 := ⟨fuel - 1, by omega⟩
        simp [encodeValueList, decodeValueListF]
    | cons v tl =>
        simp only [valueListWF, Bool.and_eq_true] at hwf
        simp only [encodeValueList] at hsz ⊢
        simp only [JsonArr.size] at hsz
        obtain ⟨m, rfl⟩ : ∃ m, fuel = m + 1 := ⟨fuel - 1, by omega⟩
        have hv := (ih m (by omega)).1 v hwf.1 (by omega)
        have htl := (ih m (by omega)).2.1 tl hwf.2 (by omega)
        simp [decodeValueListF, hv, htl]
  · intro fs hwf hsz
    cases fs with
    | nil =>
        simp only [encodeNamedValues, JsonArr.size] at hsz ⊢
        obtain ⟨m, rfl⟩ : ∃ m, fuel = m + 1 := ⟨fuel - 1, by omega⟩
        simp [encodeNamedValues, decodeNamedValuesF]
    | cons k v tl =>
        simp only [namedValuesWF, Bool.and_eq_true] at hwf
        simp only [encodeNamedValues] at hsz ⊢
        simp only [JsonArr.size, Json.size] at hsz
        obtain ⟨m, rfl⟩ : ∃ m, fuel = m + 1 := ⟨fuel - 1, by omega⟩
        have hv := (ih m (by omega)).1 v hwf.1 (by omega)
        have htl := (ih m (by omega)).2.2.1 tl hwf.2 (by omega)
        simp [decodeNamedValuesF, hv, htl]
  · intro ps hwf hsz
    cases ps with
    | nil =>
        simp only [encodeValuePairs, JsonArr.size] at hsz ⊢
        obtain ⟨m, rfl⟩ : ∃ m, fuel = m + 1 := ⟨fuel - 1, by omega⟩
        simp [encodeValuePairs, decodeValuePairsF]
    | cons k v tl =>
        simp only [valuePairsWF, Bool.and_eq_true] at hwf
        simp only [encodeValuePairs] at hsz ⊢
        simp only [JsonArr.size, Json.size] at hsz
        obtain ⟨m, rfl⟩ : ∃ m, fuel = m + 1 := ⟨fuel - 1, by omega⟩
        have hk := (ih m (by omega)).1 k hwf.1.1 (by omega)
        have hv := (ih m (by omega)).1 v hwf.1.2 (by omega)
        have htl := (ih m (by omega)).2.2.2.1 tl hwf.2 (by omega)
        simp [decodeValuePairsF, hk, hv, htl]
  · intro ns hwf hsz
    cases ns with
    | nil =>
        simp only [encodeNodeValues, JsonArr.size] at hsz ⊢
        obtain ⟨m, rfl⟩ : ∃ m, fuel = m + 1 := ⟨fuel - 1, by omega⟩
        simp [encodeNodeValues, decodeNodeValuesF]
    | cons id label props tl =>
        simp only [nodeValuesWF, Bool.and_eq_true] at hwf
        simp only [encodeNodeValues, externallyTaggedMarshal] at hsz ⊢
        simp only [JsonArr.size, Json.size, JsonObj.size] at hsz
        obtain ⟨m2, rfl⟩ : ∃ m2, fuel = m2 + 1 + 1 := ⟨fuel - 2, by omega⟩
        have hid := internalIDRoundTrip id hwf.1.1
        have hp := (ih m2 (by omega)).2.2.1 props hwf.1.2 (by omega)
        have htl := (ih (m2 + 1) (by omega)).2.2.2.2.1 tl hwf.2 (by omega)
        simp [decodeNodeValuesF, decodeNodePayloadF, asObjFields, lookupLast,
          hid, hp, htl, decodeJsonString]
  · intro rs hwf hsz
    cases rs with
    | nil =>
        simp only [encodeRelValues, JsonArr.size] at hsz ⊢
        obtain ⟨m, rfl⟩ : ∃ m, fuel = m + 1 := ⟨fuel - 1, by omega⟩
        simp [encodeRelValues, decodeRelValuesF]
    | cons src dst label props tl =>
        simp only [relValuesWF, Bool.and_eq_true] at hwf
        simp only [encodeRelValues, externallyTaggedMarshal] at hsz ⊢
        simp only [JsonArr.size, Json.size, JsonObj.size] at hsz
        obtain ⟨m2, rfl⟩ : ∃ m2, fuel = m2 + 1 + 1 := ⟨fuel - 2, by omega⟩
        have hsrc := internalIDRoundTrip src hwf.1.1.1
        have hdst := internalIDRoundTrip dst hwf.1.1.2
        have hp := (ih m2 (by omega)).2.2.1 props hwf.1.2 (by omega)
        have htl := (ih (m2 + 1) (by omega)).2.2.2.2.2 tl hwf.2 (by omega)
        simp [decodeRelValuesF, decodeRelPayloadF, asObjFields, lookupLast,
          hsrc, hdst, hp, htl, decodeJsonString]

/-- Round trip of the generic Value codec. -/
theorem valueRoundTrip (v : Value) (h : valueWF v = true) :
    decodeValue (encodeValue v) = .ok v :=
  (valueRoundTripAux (encodeValue v).size).1 v h le_rfl



/-! ## Size positivity -/

theorem valueSize_pos : ∀ v : Value, 1 ≤ valueSize v := by
  intro v; cases v <;> simp [valueSize]

theorem valueListSize_pos : ∀ vs : ValueList, 1 ≤ valueListSize vs := by
  intro vs; cases vs <;> simp [valueListSize]

theorem namedValuesSize_pos : ∀ fs : NamedValues, 1 ≤ namedValuesSize fs := by
  intro fs; cases fs <;> simp [namedValuesSize]

theorem valuePairsSize_pos : ∀ ps : ValuePairs, 1 ≤ valuePairsSize ps := by
  intro ps; cases ps <;> simp [valuePairsSize]

theorem nodeValuesSize_pos : ∀ ns : NodeValues, 1 ≤ nodeValuesSize ns := by
  intro ns; cases ns <;> simp [nodeValuesSize]

theorem relValuesSize_pos : ∀ rs : RelValues, 1 ≤ relValuesSize rs := by
  intro rs; cases rs <;> simp [relValuesSize]

theorem ltFieldsCount_pos : ∀ ts : LTFields, 1 ≤ ltFieldsCount ts := by
  intro ts; cases ts <;> simp [ltFieldsCount]

set_option maxHeartbeats 8000000 in
/-- The structural LogicalType equality test accepts a type against
itself, by strong induction on the node count. -/
theorem ltBEqReflAux : ∀ n : Nat,
    (∀ lt : LogicalType, ltSizeN lt ≤ n → ltBEq lt lt = true) ∧
    (∀ fs : LTFields, ltFieldsSizeN fs ≤ n → ltFieldsBEq fs fs = true) := by
  intro n
  induction n using Nat.strongRecOn with
  | ind n ih =>
  constructor
  · intro lt hsz
    cases lt with
    | any => rfl
    | bool => rfl
    | serial => rfl
    | int64 => rfl
    | int32 => rfl
    | int16 => rfl
    | int8 => rfl
    | uint64 => rfl
    | uint32 => rfl
    | uint16 => rfl
    | uint8 => rfl
    | int128 => rfl
    | double => rfl
    | float => rfl
    | date => rfl
    | interval => rfl
    | timestamp => rfl
    | timestampTz => rfl
    | timestampNs => rfl
    | timestampMs => rfl
    | timestampSec => rfl
    | internalID => rfl
    | string => rfl
    | blob => rfl
    | node => rfl
    | rel => rfl
    | recursiveRel => rfl
    | uuid => rfl
    | list c =>
        simp only [ltSizeN] at hsz
        have h := (ih (ltSizeN c) (by omega)).1 c le_rfl
        simp [ltBEq, h]
    | array c m =>
        simp only [ltSizeN] at hsz
        have h := (ih (ltSizeN c) (by omega)).1 c le_rfl
        simp [ltBEq, h]
    | struct fs =>
        simp only [ltSizeN] at hsz
        have h := (ih (ltFieldsSizeN fs) (by omega)).2 fs le_rfl
        simp [ltBEq, h]
    | map k v =>
        simp only [ltSizeN] at hsz
        have h1 := (ih (ltSizeN k) (by omega)).1 k le_rfl
        have h2 := (ih (ltSizeN v) (by omega)).1 v le_rfl
        simp [ltBEq, h1, h2]
    | union fs =>
        simp only [ltSizeN] at hsz
        have h := (ih (ltFieldsSizeN fs) (by omega)).2 fs le_rfl
        simp [ltBEq, h]
    | decimal p s => simp [ltBEq]
  · intro fs hsz
    cases fs with
    | nil => simp [ltFieldsBEq]
    | cons k t tl =>
        simp only [ltFieldsSizeN] at hsz
        have h1 := (ih (ltSizeN t) (by omega)).1 t le_rfl
        have h2 := (ih (ltFieldsSizeN tl) (by omega)).2 tl le_rfl
        simp [ltFieldsBEq, h1, h2]

theorem ltBEq_refl (lt : LogicalType) : ltBEq lt lt = true :=
  (ltBEqReflAux (ltSizeN lt)).1 lt le_rfl

/-! ## Reflexivity of the order-independent equality -/

set_option maxHeartbeats 8000000 in
/-- Once the fuel dominates the value's size, the order-independent
equality check accepts a value against itself. -/
theorem valueEquivReflAux : ∀ fuel : Nat,
    (∀ v : Value, valueSize v ≤ fuel → valueEquivBF fuel v v = true) ∧
    (∀ vs : ValueList, valueListSize vs ≤ fuel →
      valueListEquivBF fuel vs vs = true) ∧
    (∀ fs : NamedValues, namedValuesSize fs ≤ fuel →
      namedValuesEquivBF fuel fs fs = true) ∧
    (∀ ps : ValuePairs, valuePairsSize ps ≤ fuel →
      valuePairsEquivBF fuel ps ps = true) ∧
    (∀ ns : NodeValues, nodeValuesSize ns ≤ fuel →
      nodeValuesEquivBF fuel ns ns = true) ∧
    (∀ rs : RelValues, relValuesSize rs ≤ fuel →
      relValuesEquivBF fuel rs rs = true) ∧
    (∀ ts : LTFields, ltFieldsCount ts ≤ fuel →
      ltFieldsPermBF fuel ts ts = true) := by
  intro fuel
  induction fuel using Nat.strongRecOn with
  | ind fuel ih =>
  refine ⟨?_, ?_, ?_, ?_, ?_, ?_, ?_⟩
  · intro v hsz
    cases v with
    | list lt vs =>
        simp only [valueSize] at hsz
        obtain ⟨m, rfl⟩ : ∃ m, fuel = m + 1 := ⟨fuel - 1, by omega⟩
        have h1 := (ih m (by omega)).2.1 vs (by omega)
        simp [valueEquivBF, h1, ltBEq_refl]
    | array lt vs =>
        simp only [valueSize] at hsz
        obtain ⟨m, rfl⟩ : ∃ m, fuel = m + 1 := ⟨fuel - 1, by omega⟩
        have h1 := (ih m (by omega)).2.1 vs (by omega)
        simp [valueEquivBF, h1, ltBEq_refl]
    | struct fs =>
        simp only [valueSize] at hsz
        obtain ⟨m, rfl⟩ : ∃ m, fuel = m + 1 := ⟨fuel - 1, by omega⟩
        have h1 := (ih m (by omega)).2.2.1 fs (by omega)
        simp [valueEquivBF, h1]
    | node id label props =>
        simp only [valueSize] at hsz
        obtain ⟨m, rfl⟩ : ∃ m, fuel = m + 1 := ⟨fuel - 1, by omega⟩
        have h1 := (ih m (by omega)).2.2.1 props (by omega)
        simp [valueEquivBF, h1]
    | rel src dst label props =>
        simp only [valueSize] at hsz
        obtain ⟨m, rfl⟩ : ∃ m, fuel = m + 1 := ⟨fuel - 1, by omega⟩
        have h1 := (ih m (by omega)).2.2.1 props (by omega)
        simp [valueEquivBF, h1]
    | recursiveRel ns rs =>
        simp only [valueSize] at hsz
        obtain ⟨m, rfl⟩ : ∃ m, fuel = m + 1 := ⟨fuel - 1, by omega⟩
        have hp1 := nodeValuesSize_pos ns
        have hp2 := relValuesSize_pos rs
        have h1 := (ih m (by omega)).2.2.2.2.1 ns (by omega)
        have h2 := (ih m (by omega)).2.2.2.2.2.1 rs (by omega)
        simp [valueEquivBF, h1, h2]
    | map kt vt ps =>
        simp only [valueSize] at hsz
        obtain ⟨m, rfl⟩ : ∃ m, fuel = m + 1 := ⟨fuel - 1, by omega⟩
        have h1 := (ih m (by omega)).2.2.2.1 ps (by omega)
        simp [valueEquivBF, h1, ltBEq_refl]
    | union ts v =>
        simp only [valueSize] at hsz
        obtain ⟨m, rfl⟩ : ∃ m, fuel = m + 1 := ⟨fuel - 1, by omega⟩
        have hp1 := ltFieldsCount_pos ts
        have hp2 := valueSize_pos v
        have h1 := (ih m (by omega)).2.2.2.2.2.2 ts (by omega)
        have h2 := (ih m (by omega)).1 v (by omega)
        simp [valueEquivBF, h1, h2]
    | null lt =>
        simp only [valueSize] at hsz
        obtain ⟨m, rfl⟩ : ∃ m, fuel = m + 1 := ⟨fuel - 1, by omega⟩
        simp [valueEquivBF, ltBEq_refl]
    | bool b =>
        simp only [valueSize] at hsz
        obtain ⟨m, rfl⟩ : ∃ m, fuel = m + 1 := ⟨fuel - 1, by omega⟩
        simp [valueEquivBF]
    | int64 i =>
        simp only [valueSize] at hsz
        obtain ⟨m, rfl⟩ : ∃ m, fuel = m + 1 := ⟨fuel - 1, by omega⟩
        simp [valueEquivBF]
    | int32 i =>
        simp only [valueSize] at hsz
        obtain ⟨m, rfl⟩ : ∃ m, fuel = m + 1 := ⟨fuel - 1, by omega⟩
        simp [valueEquivBF]
    | int16 i =>
        simp only [valueSize] at hsz
        obtain ⟨m, rfl⟩ : ∃ m, fuel = m + 1 := ⟨fuel - 1, by omega⟩
        simp [valueEquivBF]
    | int8 i =>
        simp only [valueSize] at hsz
        obtain ⟨m, rfl⟩ : ∃ m, fuel = m + 1 := ⟨fuel - 1, by omega⟩
        simp [valueEquivBF]
    | uint64 n =>
        simp only [valueSize] at hsz
        obtain ⟨m, rfl⟩ : ∃ m, fuel = m + 1 := ⟨fuel - 1, by omega⟩
        simp [valueEquivBF]
    | uint32 n =>
        simp only [valueSize] at hsz
        obtain ⟨m, rfl⟩ : ∃ m, fuel = m + 1 := ⟨fuel - 1, by omega⟩
        simp [valueEquivBF]
    | uint16 n =>
        simp only [valueSize] at hsz
        obtain ⟨m, rfl⟩ : ∃ m, fuel = m + 1 := ⟨fuel - 1, by omega⟩
        simp [valueEquivBF]
    | uint8 n =>
        simp only [valueSize] at hsz
        obtain ⟨m, rfl⟩ : ∃ m, fuel = m + 1 := ⟨fuel - 1, by omega⟩
        simp [valueEquivBF]
    | int128 i =>
        simp only [valueSize] at hsz
        obtain ⟨m, rfl⟩ : ∃ m, fuel = m + 1 := ⟨fuel - 1, by omega⟩
        simp [valueEquivBF]
    | double n d =>
        simp only [valueSize] at hsz
        obtain ⟨m, rfl⟩ : ∃ m, fuel = m + 1 := ⟨fuel - 1, by omega⟩
        simp [valueEquivBF]
    | float n d =>
        simp only [valueSize] at hsz
        obtain ⟨m, rfl⟩ : ∃ m, fuel = m + 1 := ⟨fuel - 1, by omega⟩
        simp [valueEquivBF]
    | date s =>
        simp only [valueSize] at hsz
        obtain ⟨m, rfl⟩ : ∃ m, fuel = m + 1 := ⟨fuel - 1, by omega⟩
        simp [valueEquivBF]
    | interval d =>
        simp only [valueSize] at hsz
        obtain ⟨m, rfl⟩ : ∃ m, fuel = m + 1 := ⟨fuel - 1, by omega⟩
        simp [valueEquivBF]
    | timestamp s =>
        simp only [valueSize] at hsz
        obtain ⟨m, rfl⟩ : ∃ m, fuel = m + 1 := ⟨fuel - 1, by omega⟩
        simp [valueEquivBF]
    | timestampTz s =>
        simp only [valueSize] at hsz
        obtain ⟨m, rfl⟩ : ∃ m, fuel = m + 1 := ⟨fuel - 1, by omega⟩
        simp [valueEquivBF]
    | timestampNs s =>
        simp only [valueSize] at hsz
        obtain ⟨m, rfl⟩ : ∃ m, fuel = m + 1 := ⟨fuel - 1, by omega⟩
        simp [valueEquivBF]
    | timestampMs s =>
        simp only [valueSize] at hsz
        obtain ⟨m, rfl⟩ : ∃ m, fuel = m + 1 := ⟨fuel - 1, by omega⟩
        simp [valueEquivBF]
    | timestampSec s =>
        simp only [valueSize] at hsz
        obtain ⟨m, rfl⟩ : ∃ m, fuel = m + 1 := ⟨fuel - 1, by omega⟩
        simp [valueEquivBF]
    | internalID id =>
        simp only [valueSize] at hsz
        obtain ⟨m, rfl⟩ : ∃ m, fuel = m + 1 := ⟨fuel - 1, by omega⟩
        simp [valueEquivBF]
    | string s =>
        simp only [valueSize] at hsz
        obtain ⟨m, rfl⟩ : ∃ m, fuel = m + 1 := ⟨fuel - 1, by omega⟩
        simp [valueEquivBF]
    | blob bs =>
        simp only [valueSize] at hsz
        obtain ⟨m, rfl⟩ : ∃ m, fuel = m + 1 := ⟨fuel - 1, by omega⟩
        simp [valueEquivBF]
    | uuid s =>
        simp only [valueSize] at hsz
        obtain ⟨m, rfl⟩ : ∃ m, fuel = m + 1 := ⟨fuel - 1, by omega⟩
        simp [valueEquivBF]
    | decimal s =>
        simp only [valueSize] at hsz
        obtain ⟨m, rfl⟩ : ∃ m, fuel = m + 1 := ⟨fuel - 1, by omega⟩
        simp [valueEquivBF]
  · intro vs hsz
    cases vs with
    | nil =>
        obtain ⟨m, rfl⟩ : ∃ m, fuel = m + 1 := ⟨fuel - 1, by
          simp only [valueListSize] at hsz; omega⟩
        simp [valueListEquivBF]
    | cons v tl =>
        simp only [valueListSize] at hsz
        obtain ⟨m, rfl⟩ : ∃ m, fuel = m + 1 := ⟨fuel - 1, by omega⟩
        have hp1 := valueSize_pos v
        have hp2 := valueListSize_pos tl
        have h1 := (ih m (by omega)).1 v (by omega)
        have h2 := (ih m (by omega)).2.1 tl (by omega)
        simp [valueListEquivBF, h1, h2]
  · intro fs hsz
    cases fs with
    | nil =>
        obtain ⟨m, rfl⟩ : ∃ m, fuel = m + 1 := ⟨fuel - 1, by
          simp only [namedValuesSize] at hsz; omega⟩
        simp [namedValuesEquivBF]
    | cons k v tl =>
        simp only [namedValuesSize] at hsz
        have hp1 := valueSize_pos v
        have hp2 := namedValuesSize_pos tl
        obtain ⟨m2, rfl⟩ : ∃ m2, fuel = m2 + 1 + 1 := ⟨fuel - 2, by omega⟩
        have hv := (ih m2 (by omega)).1 v (by omega)
        have htl := (ih (m2 + 1) (by omega)).2.2.1 tl (by omega)
        simp [namedValuesEquivBF, extractNamedBF, hv, htl]
  · intro ps hsz
    cases ps with
    | nil =>
        obtain ⟨m, rfl⟩ : ∃ m, fuel = m + 1 := ⟨fuel - 1, by
          simp only [valuePairsSize] at hsz; omega⟩
        simp [valuePairsEquivBF]
    | cons k v tl =>
        simp only [valuePairsSize] at hsz
        have hp1 := valueSize_pos k
        have hp2 := valueSize_pos v
        have hp3 := valuePairsSize_pos tl
        obtain ⟨m2, rfl⟩ : ∃ m2, fuel = m2 + 1 + 1 := ⟨fuel - 2, by omega⟩
        have hk := (ih m2 (by omega)).1 k (by omega)
        have hv := (ih m2 (by omega)).1 v (by omega)
        have htl := (ih (m2 + 1) (by omega)).2.2.2.1 tl (by omega)
        simp [valuePairsEquivBF, extractPairBF, hk, hv, htl]
  · intro ns hsz
    cases ns with
    | nil =>
        obtain ⟨m, rfl⟩ : ∃ m, fuel = m + 1 := ⟨fuel - 1, by
          simp only [nodeValuesSize] at hsz; omega⟩
        simp [nodeValuesEquivBF]
    | cons id label props tl =>
        simp only [nodeValuesSize] at hsz
        have hp1 := namedValuesSize_pos props
        have hp2 := nodeValuesSize_pos tl
        obtain ⟨m, rfl⟩ : ∃ m, fuel = m + 1 := ⟨fuel - 1, by omega⟩
        have h1 := (ih m (by omega)).2.2.1 props (by omega)
        have h2 := (ih m (by omega)).2.2.2.2.1 tl (by omega)
        simp [nodeValuesEquivBF, h1, h2]
  · intro rs hsz
    cases rs with
    | nil =>
        obtain ⟨m, rfl⟩ : ∃ m, fuel = m + 1 := ⟨fuel - 1, by
          simp only [relValuesSize] at hsz; omega⟩
        simp [relValuesEquivBF]
    | cons src dst label props tl =>
        simp only [relValuesSize] at hsz
        have hp1 := namedValuesSize_pos props
        have hp2 := relValuesSize_pos tl
        obtain ⟨m, rfl⟩ : ∃ m, fuel = m + 1 := ⟨fuel - 1, by omega⟩
        have h1 := (ih m (by omega)).2.2.1 props (by omega)
        have h2 := (ih m (by omega)).2.2.2.2.2.1 tl (by omega)
        simp [relValuesEquivBF, h1, h2]
  · intro ts hsz
    cases ts with
    | nil =>
        obtain ⟨m, rfl⟩ : ∃ m, fuel = m + 1 := ⟨fuel - 1, by
          simp only [ltFieldsCount] at hsz; omega⟩
        simp [ltFieldsPermBF]
    | cons k t tl =>
        simp only [ltFieldsCount] at hsz
        have hp1 := ltFieldsCount_pos tl
        obtain ⟨m2, rfl⟩ : ∃ m2, fuel = m2 + 1 + 1 := ⟨fuel - 2, by omega⟩
        have htl := (ih (m2 + 1) (by omega)).2.2.2.2.2.2 tl (by omega)
        simp [ltFieldsPermBF, extractLTFieldBF, htl, ltBEq_refl]

/-- The order-independent equality is reflexive. -/
theorem valueEquivB_refl (v : Value) : valueEquivB v v = true := by
  refine (valueEquivReflAux ((valueSize v + 1) * (valueSize v + 1))).1 v ?_
  nlinarith [valueSize_pos v]


/-- The generic decoder on a single-key object dispatches the payload to
the tag's decoder at the payload-dominating fuel. -/
theorem decodeValue_single (k : String) (p : Json) :
    decodeValue (.obj (.cons k p .nil)) =
      decodeValuePayloadF (p.size + 2) k p := by
  unfold decodeValue
  have h : Json.size (.obj (.cons k p .nil)) = p.size + 2 + 1 := by
    simp only [Json.size, JsonObj.size]
  rw [h]
  simp [decodeValueF]

/-! ## Claim theorems -/

/-- C1: decoding the encoding of any well-formed LogicalType or Value
returns exactly the original; any successful decode of an encoding is
order-independently equal (multiset equality over the pair lists of
Struct/Node/Rel/Map/Union) to the original; and the two pair orders of a
concrete two-field struct both decode, to order-independently equal
values. -/
theorem codecRoundTrip :
    (∀ lt : LogicalType, ltWF lt = true →
      decodeLogicalType (encodeLogicalType lt) = .ok lt) ∧
    (∀ v : Value, valueWF v = true →
      decodeValue (encodeValue v) = .ok v) ∧
    (∀ v w : Value, valueWF v = true →
      decodeValue (encodeValue v) = .ok w → valueEquivB w v = true) ∧
    (∃ v1 v2 : Value,
      decodeValue (.obj (.cons "Struct" (.arr
        (.cons (.arr (.cons (.str "a")
            (.cons (.obj (.cons "Int64" (.num 1 1) .nil)) .nil)))
          (.cons (.arr (.cons (.str "b")
            (.cons (.obj (.cons "Bool" (.bool true) .nil)) .nil))) .nil)))
        .nil)) = .ok v1 ∧
      decodeValue (.obj (.cons "Struct" (.arr
        (.cons (.arr (.cons (.str "b")
            (.cons (.obj (.cons "Bool" (.bool true) .nil)) .nil)))
          (.cons (.arr (.cons (.str "a")
            (.cons (.obj (.cons "Int64" (.num 1 1) .nil)) .nil))) .nil)))
        .nil)) = .ok v2 ∧
      v1 ≠ v2 ∧ valueEquivB v1 v2 = true) := by
  refine ⟨fun lt h => ltRoundTrip lt h, fun v h => valueRoundTrip v h, ?_, ?_⟩
  · intro v w hwf hdec
    rw [valueRoundTrip v hwf] at hdec
    injection hdec with h
    subst h
    exact valueEquivB_refl v
  · refine ⟨.struct (.cons "a" (.int64 1) (.cons "b" (.bool true) .nil)),
      .struct (.cons "b" (.bool true) (.cons "a" (.int64 1) .nil)),
      ?_, ?_, by simp, by decide⟩
    · simp [decodeValue, Json.size, JsonArr.size, JsonObj.size,
        decodeValueF, decodeValuePayloadF, decodeNamedValuesF,
        decodeJsonInt64, decodeJsonBool]
    · simp [decodeValue, Json.size, JsonArr.size, JsonObj.size,
        decodeValueF, decodeValuePayloadF, decodeNamedValuesF,
        decodeJsonInt64, decodeJsonBool]

theorem codecRoundTrip_witness :
    decodeLogicalType (encodeLogicalType (.list .float)) = .ok (.list .float) ∧
    decodeValue (encodeValue (.struct (.cons "a" (.int64 5) .nil))) =
      .ok (.struct (.cons "a" (.int64 5) .nil)) ∧
    valueEquivB (.struct (.cons "a" (.int64 5) .nil))
      (.struct (.cons "a" (.int64 5) .nil)) = true :=
  ⟨codecRoundTrip.1 (.list .float) (by decide),
   codecRoundTrip.2.1 (.struct (.cons "a" (.int64 5) .nil)) (by decide),
   codecRoundTrip.2.2.1 (.struct (.cons "a" (.int64 5) .nil))
     (.struct (.cons "a" (.int64 5) .nil)) (by decide)
     (codecRoundTrip.2.1 (.struct (.cons "a" (.int64 5) .nil)) (by decide))⟩

/-- C2: the externally-tagged encoder emits the bare tag string for a
variant with no payload and the single-key object `{tag: payload}` for a
variant with one; in particular `Bool` encodes as the string `"Bool"` and
`List(Float)` as `{"List": {"child_type": "Float"}}`. -/
theorem encodeShape :
    (∀ lt : LogicalType, ltIsUnit lt = true →
      encodeLogicalType lt = .str (ltTag lt)) ∧
    (∀ lt : LogicalType, ltIsUnit lt = false →
      ∃ p, encodeLogicalType lt = .obj (.cons (ltTag lt) p .nil)) ∧
    (∀ v : Value, ∃ p, encodeValue v = .obj (.cons (valueTagStr v) p .nil)) ∧
    encodeLogicalType .bool = .str "Bool" ∧
    encodeLogicalType (.list .float) =
      .obj (.cons "List" (.obj (.cons "child_type" (.str "Float") .nil)) .nil) := by
  refine ⟨?_, ?_, ?_, by decide, by decide⟩
  · intro lt h
    cases lt <;> first | rfl | exact absurd h (by simp [ltIsUnit])
  · intro lt h
    cases lt <;> first | exact ⟨_, rfl⟩ | exact absurd h (by simp [ltIsUnit])
  · intro v
    cases v <;> exact ⟨_, rfl⟩

theorem encodeShape_witness :
    encodeLogicalType .int64 = .str (ltTag .int64) ∧
    ∃ p, encodeLogicalType (.decimal 4 2) =
      .obj (.cons (ltTag (.decimal 4 2)) p .nil) :=
  ⟨encodeShape.1 .int64 (by decide), encodeShape.2.1 (.decimal 4 2) (by decide)⟩

/-- C3 counterexample: on a single-key object whose key is wrong AND whose
payload is malformed, the decoder surfaces the payload's type error — it
decodes the payload before comparing the key — not the tag-mismatch error
that the check-key-first order stated by the spec would give. -/
theorem wrapperOrder_cex :
    externallyTaggedUnmarshal "Bool" decodeJsonBool
      (.obj (.cons "Oops" (.str "junk") .nil)) = .error .typeErr ∧
    (∀ expected found : String,
      JErr.typeErr ≠ JErr.tagMismatchKey expected found) :=
  ⟨by decide, fun _ _ h => JErr.noConfusion h⟩

/-- C3 (amended): on an object the wrapper requires exactly one key, then
decodes the payload FIRST — a payload error preempts any key comparison —
and only on payload success compares the key with the expected tag; a
non-object input is treated as a bare string and compared with the tag
(`ok none` is the unit form). -/
theorem wrapperDecodeOrder {α : Type} (tag : String)
    (inner : Json → Except JErr α) :
    (∀ k p e, inner p = .error e →
      externallyTaggedUnmarshal tag inner (.obj (.cons k p .nil)) = .error e) ∧
    (∀ k p a, inner p = .ok a → k ≠ tag →
      externallyTaggedUnmarshal tag inner (.obj (.cons k p .nil)) =
        .error (.tagMismatchKey tag k)) ∧
    (∀ k p a, inner p = .ok a → k = tag →
      externallyTaggedUnmarshal tag inner (.obj (.cons k p .nil)) =
        .ok (some a)) ∧
    (∀ k1 p1 k2 p2 tl,
      externallyTaggedUnmarshal tag inner
        (.obj (.cons k1 p1 (.cons k2 p2 tl))) =
        .error (.unexpectedKeyCount
          (JsonObj.length (.cons k1 p1 (.cons k2 p2 tl))))) ∧
    (externallyTaggedUnmarshal tag inner (.obj .nil) =
      .error (.unexpectedKeyCount 0)) ∧
    (∀ s, s ≠ tag → externallyTaggedUnmarshal tag inner (.str s) =
      .error (.tagMismatchString s tag)) ∧
    (externallyTaggedUnmarshal tag inner (.str tag) = .ok none) := by
  refine ⟨?_, ?_, ?_, fun _ _ _ _ _ => rfl, rfl, ?_, ?_⟩
  · intro k p e h; simp [externallyTaggedUnmarshal, h]
  · intro k p a h hk; simp [externallyTaggedUnmarshal, h, hk]
  · intro k p a h hk; simp [externallyTaggedUnmarshal, h, hk]
  · intro s h; simp [externallyTaggedUnmarshal, h]
  · simp [externallyTaggedUnmarshal]

theorem wrapperDecodeOrder_witness :
    externallyTaggedUnmarshal "Bool" decodeJsonBool
      (.obj (.cons "Nope" (.bool true) .nil)) =
      .error (.tagMismatchKey "Bool" "Nope") ∧
    externallyTaggedUnmarshal "Bool" decodeJsonBool (.str "Bool") = .ok none :=
  ⟨(wrapperDecodeOrder "Bool" decodeJsonBool).2.1 "Nope" (.bool true) true
      rfl (by decide),
   (wrapperDecodeOrder "Bool" decodeJsonBool).2.2.2.2.2.2⟩

/-- C4: any input the typed externally-tagged decoder of some variant
accepts is accepted by the generic registry decoder with the identical
value; a single-key object whose key is not in the closed registry fails
the generic decode with the unknown-tag error. -/
theorem genericMatchesTyped :
    (∀ (tag : String) (j : Json) (v : Value),
      typedDecodeValue tag j = .ok v → decodeValue j = .ok v) ∧
    (∀ (k : String) (p : Json), k ∉ valueTags →
      decodeValue (.obj (.cons k p .nil)) = .error (.unknownTag k)) := by
  constructor
  · intro tag j v h
    cases j with
    | obj o =>
        cases o with
        | nil => simp [typedDecodeValue] at h
        | cons k p tl =>
            cases tl with
            | cons k2 p2 tl2 => simp [typedDecodeValue] at h
            | nil =>
                rw [decodeValue_single]
                simp only [typedDecodeValue] at h
                rcases hd : decodeValuePayloadF (p.size + 2) tag p with e | a
                · rw [hd] at h; simp at h
                · rw [hd] at h
                  by_cases hk : k = tag
                  · simp only [hk, if_pos rfl] at h
                    injection h with h2
                    subst h2
                    rw [hk, hd]
                  · simp [hk] at h
    | null => simp [typedDecodeValue] at h
    | bool b => simp [typedDecodeValue] at h
    | num n d => simp [typedDecodeValue] at h
    | arr a => simp [typedDecodeValue] at h
    | str s =>
        simp only [typedDecodeValue] at h
        split at h <;> simp at h
  · intro k p hk
    rw [decodeValue_single, decodeValuePayloadF.eq_def]
    split <;> simp_all [valueTags]

theorem genericMatchesTyped_witness :
    decodeValue (.obj (.cons "Int64" (.num 7 1) .nil)) = .ok (.int64 7) ∧
    decodeValue (.obj (.cons "Oops" (.num 7 1) .nil)) =
      .error (.unknownTag "Oops") :=
  ⟨genericMatchesTyped.1 "Int64" (.obj (.cons "Int64" (.num 7 1) .nil))
      (.int64 7) (by
        simp [typedDecodeValue, Json.size, decodeValuePayloadF,
          decodeJsonInt64]),
   genericMatchesTyped.2 "Oops" (.num 7 1) (by decide)⟩

/-- C5 counterexample: at the int64 endpoint `Round(1s)` saturates and the
interval round trip is lossy — the spec's "decode(encode(d)) == d exactly"
fails for `d = maxInt64`. -/
theorem intervalSaturation_cex :
    intervalUnmarshal (intervalMarshal 9223372036854775807).1
      (intervalMarshal 9223372036854775807).2 = 9223372036000000000 ∧
    (9223372036000000000 : Int) ≠ 9223372036854775807 := by
  constructor
  · decide
  · decide

/-- C5 (amended): the interval encoder emits `[whole_seconds, remainder]`
with `whole_seconds` the duration rounded to the nearest second (in
seconds) and `remainder = d - rounded`, and the decoder reconstructs
`whole_seconds * 1e9 + remainder`, recovering `d` exactly — for every
duration at least one second away from the int64 endpoints (at the
endpoints `Round(1s)` saturates and the round trip is lossy); 23 days
encodes as `[1987200, 0]` and 23 days + 456ns as `[1987200, 456]`. -/
theorem intervalCodec :
    (∀ d : Int, -9223372036854775808 + 1000000000 ≤ d →
      d ≤ 9223372036854775807 - 1000000000 →
      intervalUnmarshal (intervalMarshal d).1 (intervalMarshal d).2 = d) ∧
    intervalMarshal 1987200000000000 = (1987200, 0) ∧
    intervalMarshal 1987200000000456 = (1987200, 456) := by
  refine ⟨fun d h1 h2 => intervalRoundTripExact d h1 h2, by decide, by decide⟩

theorem intervalCodec_witness :
    intervalUnmarshal (intervalMarshal 600000000).1
      (intervalMarshal 600000000).2 = 600000000 :=
  intervalCodec.1 600000000 (by decide) (by decide)

/-- C6 (code bug): the `Parse` dispatch has no case for the declared
`"timestamp"` type name — every input string falls through to the default
unknown-type error — while each of the other 22 declared scalar type
names parses some input string to its Value variant through its scalar
parser. -/
theorem graphDbParse_timestamp_missing :
    (∀ s : String, graphDbValueTypeParse "timestamp" s =
      .error "unknown value type timestamp") ∧
    graphDbValueTypeParse "bool" "true" = .ok (.bool true) ∧
    graphDbValueTypeParse "int64" "-5" = .ok (.int64 (-5)) ∧
    graphDbValueTypeParse "int32" "7" = .ok (.int32 7) ∧
    graphDbValueTypeParse "int16" "7" = .ok (.int16 7) ∧
    graphDbValueTypeParse "int8" "7" = .ok (.int8 7) ∧
    graphDbValueTypeParse "uint64" "7" = .ok (.uint64 7) ∧
    graphDbValueTypeParse "uint32" "7" = .ok (.uint32 7) ∧
    graphDbValueTypeParse "uint16" "7" = .ok (.uint16 7) ∧
    graphDbValueTypeParse "uint8" "7" = .ok (.uint8 7) ∧
    graphDbValueTypeParse "int128" "7" = .ok (.int128 7) ∧
    graphDbValueTypeParse "double" "1.5" = .ok (.double 15 10) ∧
    graphDbValueTypeParse "float" "2" = .ok (.float 2 1) ∧
    graphDbValueTypeParse "date" "2024-01-02" = .ok (.date "2024-01-02") ∧
    graphDbValueTypeParse "interval" "3s" = .ok (.interval 3000000000) ∧
    graphDbValueTypeParse "timestamptz" "2024-01-02T03:04:05Z" =
      .ok (.timestampTz "2024-01-02T03:04:05Z") ∧
    graphDbValueTypeParse "timestampns" "2024-01-02T03:04:05Z" =
      .ok (.timestampNs "2024-01-02T03:04:05Z") ∧
    graphDbValueTypeParse "timestampms" "2024-01-02T03:04:05Z" =
      .ok (.timestampMs "2024-01-02T03:04:05Z") ∧
    graphDbValueTypeParse "timestampsec" "2024-01-02T03:04:05Z" =
      .ok (.timestampSec "2024-01-02T03:04:05Z") ∧
    graphDbValueTypeParse "string" "hello" = .ok (.string "hello") ∧
    graphDbValueTypeParse "blob" "\"AAEC\"" = .ok (.blob [0, 1, 2]) ∧
    graphDbValueTypeParse "uuid" "123e4567-e89b-12d3-a456-426614174000" =
      .ok (.uuid "123e4567-e89b-12d3-a456-426614174000") ∧
    graphDbValueTypeParse "decimal" "9" = .ok (.decimal "9") := by
  exact ⟨fun s => rfl, rfl, rfl, rfl, rfl, rfl, rfl, rfl, rfl, rfl, rfl, rfl, rfl, rfl, rfl, rfl, rfl, rfl, rfl, rfl, rfl, rfl, rfl⟩

/-- C7: a blob encodes as the single-key object `{"Blob": a}` where `a` is
the JSON array of the byte values in order (not a base64 string); a
well-formed blob round-trips; and a leading array element outside 0-255
fails the decode (via the u16 narrowing for 256-65535, via the u16 range
check above that). -/
theorem blobCodec :
    (∀ bs : List Int, encodeValue (.blob bs) =
      .obj (.cons "Blob" (.arr (blobMarshal bs)) .nil)) ∧
    (∀ bs : List Int,
      (bs.all fun b => decide (0 ≤ b) && decide (b < 256)) = true →
      decodeValue (encodeValue (.blob bs)) = .ok (.blob bs)) ∧
    encodeValue (.blob [0, 1, 2, 3, 4]) =
      .obj (.cons "Blob" (.arr (.cons (.num 0 1) (.cons (.num 1 1)
        (.cons (.num 2 1) (.cons (.num 3 1)
          (.cons (.num 4 1) .nil)))))) .nil) ∧
    (∀ (n : Int) (tl : JsonArr), 255 < n →
      ∃ e, decodeBlobArr (.cons (.num n 1) tl) = .error e) := by
  refine ⟨fun bs => rfl, ?_, by decide, ?_⟩
  · intro bs h
    exact valueRoundTrip (.blob bs) (by simp only [valueWF]; exact h)
  · intro n tl h
    by_cases hn : n < 65536
    · refine ⟨.invalidByteValue n, ?_⟩
      have h0 : (0 : Int) ≤ n := by omega
      simp [decodeBlobArr, decodeJsonUInt16, h0, hn, h]
    · refine ⟨.numErr, ?_⟩
      simp [decodeBlobArr, decodeJsonUInt16, hn]

theorem blobCodec_witness :
    decodeValue (encodeValue (.blob [0, 255])) = .ok (.blob [0, 255]) ∧
    ∃ e, decodeBlobArr (.cons (.num 300 1) .nil) = .error e :=
  ⟨blobCodec.2.1 [0, 255] (by decide), blobCodec.2.2.2 300 .nil (by decide)⟩

/-- C8 counterexample: an InternalID object missing the `offset` field
decodes successfully (the missing field keeps its zero value) instead of
failing as the spec's "both fields required" states. -/
theorem internalIDMissingField_cex :
    decodeInternalID (.obj (.cons "table_id" (.num 5 1) .nil)) =
      .ok ⟨5, 0⟩ := by
  decide

/-- C8 (amended): stdlib struct decoding requires no field: an object
missing either or both keys (and JSON `null`) decodes successfully, the
missing fields keeping their zero values. -/
theorem internalIDDecodeDefaults :
    decodeInternalID (.obj .nil) = .ok ⟨0, 0⟩ ∧
    (∀ t : Int, 0 ≤ t → t < 18446744073709551616 →
      decodeInternalID (.obj (.cons "table_id" (.num t 1) .nil)) =
        .ok ⟨t, 0⟩) ∧
    (∀ o : Int, 0 ≤ o → o < 18446744073709551616 →
      decodeInternalID (.obj (.cons "offset" (.num o 1) .nil)) =
        .ok ⟨0, o⟩) ∧
    decodeInternalID .null = .ok ⟨0, 0⟩ := by
  refine ⟨rfl, ?_, ?_, rfl⟩
  · intro t h0 h1
    simp [decodeInternalID, decodeInternalIDFields, decodeJsonUInt64, h0, h1]
  · intro o h0 h1
    simp [decodeInternalID, decodeInternalIDFields, decodeJsonUInt64, h0, h1]

theorem internalIDDecodeDefaults_witness :
    decodeInternalID (.obj (.cons "offset" (.num 9 1) .nil)) = .ok ⟨0, 9⟩ :=
  internalIDDecodeDefaults.2.2.1 9 (by decide) (by decide)

/-- C9: decoding an array as a 2-tuple succeeds exactly on length-2 arrays
(decoding the elements in order) and fails any other length with the
malformed-tuple error; in particular a 3-element array fails. -/
theorem twopleLength {α β : Type} (decA : Json → Except JErr α)
    (decB : Json → Except JErr β) :
    (∀ a b x y, decA a = .ok x → decB b = .ok y →
      twopleUnmarshal decA decB (.arr (.cons a (.cons b .nil))) =
        .ok (x, y)) ∧
    (∀ elems : JsonArr, elems.length ≠ 2 →
      twopleUnmarshal decA decB (.arr elems) =
        .error (.malformedTuple elems.length)) ∧
    twopleUnmarshal decA decB
      (.arr (.cons (.num 1 1) (.cons (.num 2 1) (.cons (.num 3 1) .nil)))) =
      .error (.malformedTuple 3) := by
  refine ⟨?_, ?_, ?_⟩
  · intro a b x y ha hb
    simp [twopleUnmarshal, ha, hb]
  · intro elems h
    cases elems with
    | nil => rfl
    | cons a tl =>
        cases tl with
        | nil => rfl
        | cons b tl2 =>
            cases tl2 with
            | nil => exact absurd (by simp [JsonArr.length]) h
            | cons c tl3 => rfl
  · simp [twopleUnmarshal, JsonArr.length]

theorem twopleLength_witness :
    twopleUnmarshal decodeJsonInt64 decodeJsonInt64
      (.arr (.cons (.num 1 1) (.cons (.num 2 1) .nil))) = .ok (1, 2) ∧
    twopleUnmarshal decodeJsonInt64 decodeJsonInt64
      (.arr (.cons (.num 1 1) .nil)) = .error (.malformedTuple 1) :=
  ⟨(twopleLength decodeJsonInt64 decodeJsonInt64).1 (.num 1 1) (.num 2 1) 1 2
      (by decide) (by decide),
   (twopleLength decodeJsonInt64 decodeJsonInt64).2.1
      (.cons (.num 1 1) .nil) (by decide)⟩

/-- C10: over the whole int64 range the nanosecond remainder emitted by
the interval encoder has magnitude at most half a second, and it can be
negative: 600ms rounds up to one second and encodes as
`[1, -400000000]`. -/
theorem intervalRemainderBound :
    (∀ d : Int, -9223372036854775808 ≤ d → d ≤ 9223372036854775807 →
      -500000000 ≤ (intervalMarshal d).2 ∧
        (intervalMarshal d).2 ≤ 500000000) ∧
    intervalMarshal 600000000 = (1, -400000000) :=
  ⟨fun d h1 h2 => intervalMarshal_snd_bound d h1 h2, by decide⟩

theorem intervalRemainderBound_witness :
    -500000000 ≤ (intervalMarshal 600000000).2 ∧
      (intervalMarshal 600000000).2 ≤ 500000000 :=
  intervalRemainderBound.1 600000000 (by decide) (by decide)

end AaliGraphDb
